import Mathlib

/-!
# Sistema WTZ guincho: chat-state synchronisation and auto-reply

A shallow embedding of `server.js`: the process-wide variables become one
`ServerState` record, every event handler becomes a function from the state,
the event's payload and the outcome of the provider calls it awaits to the new
state and the list of effects it performs, in program order.

Conventions of the embedding.
* A JavaScript `Map` is an association list in insertion order (`jsMapSet`
  overwrites in place, or appends a new key at the end).
* Counters and timestamps are natural numbers (JavaScript numbers are exact on
  the integers below `2^53`).
* `String.prototype.toLowerCase` is the Unicode library function; handlers take
  it as the parameter `lc`.
* `console.log` and `console.error` are not recorded as effects.
* A handler function runs from its first to its last statement without
  another handler running in between. The message handler, which reads the
  shared registry entry again after `await chat.sendSeen()`, is also given in
  its two parts, `onMessageStart` and `onMessageResume`, so that the handlers
  of several messages can overlap at that suspension point (`runLoop`).
-/

namespace WtzGuincho

/-! ## Data model -/

/-- Summary of one conversation, the value type of `activeChats`. -/
structure ChatData where
  id : String
  name : String
  lastMessage : String
  unread : Nat
  timestamp : Nat
deriving DecidableEq, Repr

/-- One keyword rule of `botConfig.autoReplies`. -/
structure AutoReply where
  trigger : String
  content : String
deriving DecidableEq, Repr

/-- The bot settings held in `botConfig`. -/
structure BotConfig where
  status : String
  greeting : String
  farewell : String
  autoReplies : List AutoReply
deriving DecidableEq, Repr

/-- A chat object as the provider reports it (`getChats`, `msg.getChat`,
`getChatById`): `id._serialized`, `id.user`, `name`, `lastMessage?.body`,
`unreadCount`, `timestamp`. -/
structure ProviderChat where
  idSerialized : String
  idUser : String
  name : Option String
  lastMessageBody : Option String
  unreadCount : Nat
  timestamp : Nat
deriving DecidableEq, Repr

/-- A message object as the provider reports it. -/
structure ProviderMessage where
  body : String
  hasMedia : Bool
  fromMe : Bool
  timestamp : Nat
  notifyName : Option String
deriving DecidableEq, Repr

/-- Confirmation returned by `whatsappClient.sendMessage`: `id.id` and `timestamp`. -/
structure SentMsg where
  idId : String
  timestamp : Nat
deriving DecidableEq, Repr

/-- The `file` object of a `send-file` command. -/
structure UploadFile where
  mimetype : String
  data : String
  name : String
deriving DecidableEq, Repr

/-- Payload of `chat-updated`; a field that the emitting handler leaves out is `none`. -/
structure ChatUpdated where
  chatId : String
  lastMessage : Option String
  unread : Option Nat
  timestamp : Option Nat
deriving DecidableEq, Repr

/-- Payload of `specific-message` and `historic-message`. `timestampMs` is the
argument of `new Date(...)` whose ISO string is sent. -/
structure MessagePayload where
  chatId : String
  sender : String
  message : String
  timestampMs : Nat
  isMedia : Bool
  fromMe : Bool
  filePath : String
deriving DecidableEq, Repr

/-- Socket events the server emits, by channel name. -/
inductive Event where
  | whatsappStatus (status : String)
  | chatListUpdate (entries : List (String × ChatData))
  | chatUpdated (p : ChatUpdated)
  | specificMessage (p : MessagePayload)
  | historicMessage (p : MessagePayload)
  | autoReply (chatId message : String)
  | loadError (chatId error : String)
  | messageSent (chatId messageId : String) (timestampMs : Nat)
  | messageStatus (chatId status messageId : String) (now : Nat)
  | fileUploaded (chatId fileName fileUrl : String) (timestampMs : Nat)
  | error (text : String)
  | ngrokUrl (url : String)
  | botConfig (config : Option BotConfig)
  | botConfigUpdated (config : Option BotConfig)
deriving DecidableEq, Repr

/-- Operations invoked on the provider client. -/
inductive ProviderOp where
  | getChats
  | getChat
  | getChatById (chatId : String)
  | fetchMessages (chatId : String) (limit : Nat)
  | downloadMedia
  | sendSeen (chatId : String)
  | sendMessage (chatId body : String)
  | sendMedia (chatId : String) (file : UploadFile)
deriving DecidableEq, Repr

/-- The two callbacks handed to `setTimeout` by the message handler. The keyword
reply closes over the matched rule; the greeting reads `botConfig.greeting`
when it fires. -/
inductive Timer where
  | keywordReply (chatId content : String)
  | greeting (chatId : String)
deriving DecidableEq, Repr

/-- Effects of a handler, in program order. -/
inductive Effect where
  | broadcast (e : Event)
  | toSocket (e : Event)
  | provider (op : ProviderOp)
  | setTimeout (t : Timer) (delay : Nat)
  | writeConfigFile (config : Option BotConfig)
  | writeUpload (fileName : String)
deriving DecidableEq, Repr

/-- Content of `bot-config.json`: the JSON text of a config value, or text
that `JSON.parse` rejects. -/
inductive ConfigFile where
  | json (config : Option BotConfig)
  | corrupt
deriving DecidableEq, Repr

/-- The global variables of the server, and the config file on disk.
`botConfig = none` is the JavaScript value `null`. -/
structure ServerState where
  whatsappClient : Bool
  clientInfo : Bool
  isAuthenticated : Bool
  activeChats : List (String × ChatData)
  ngrokUrl : Option String
  botConfig : Option BotConfig
  configFile : Option ConfigFile
deriving DecidableEq, Repr

/-! ## JavaScript `Map` and small helpers -/

/-- `Map.prototype.get`. -/
def jsMapGet (m : List (String × ChatData)) (k : String) : Option ChatData :=
  match m with
  | [] => none
  | (k', v) :: rest => if k' = k then some v else jsMapGet rest k

/-- `Map.prototype.has`. -/
def jsMapHas (m : List (String × ChatData)) (k : String) : Bool :=
  (jsMapGet m k).isSome

/-- `Map.prototype.set`: an existing key keeps its position, a new key goes last. -/
def jsMapSet (m : List (String × ChatData)) (k : String) (v : ChatData) :
    List (String × ChatData) :=
  match m with
  | [] => [(k, v)]
  | (k', v') :: rest => if k' = k then (k, v) :: rest else (k', v') :: jsMapSet rest k v

/-- The expression `a || b` on an optional string: `undefined` and the empty
string are falsy. -/
def jsOr (a : Option String) (b : String) : String :=
  match a with
  | none => b
  | some x => if x = "" then b else x

/-- `String.prototype.includes` on the character lists. -/
def includesChars (s t : List Char) : Bool :=
  match s with
  | [] => t.isEmpty
  | c :: cs => t.isPrefixOf (c :: cs) || includesChars cs t

/-- `s.includes(t)`. -/
def jsIncludes (s t : String) : Bool := includesChars s.data t.data

/-- Lower-casing of the ASCII and Latin-1 letters, on which it agrees with
`toLowerCase`; used to evaluate the handlers on concrete messages. -/
def lowerLatin (s : String) : String :=
  String.mk <| s.data.map fun c =>
    if (65 ≤ c.toNat ∧ c.toNat ≤ 90) ∨ (192 ≤ c.toNat ∧ c.toNat ≤ 222 ∧ c.toNat ≠ 215) then
      Char.ofNat (c.toNat + 32)
    else c

/-- The initial value of `botConfig` in the source. -/
def defaultBotConfig : BotConfig where
  status := "active"
  greeting := "Olá! Bem-vindo ao atendimento de guincho. Como posso ajudar?"
  farewell := "Obrigado por entrar em contato. Tenha um bom dia!"
  autoReplies :=
    [ ⟨"preço", "O valor do serviço de guincho varia conforme a distância. Para um orçamento preciso, por favor informe seu endereço."⟩,
      ⟨"horário", "Atendemos 24 horas por dia, 7 dias por semana, incluindo feriados."⟩,
      ⟨"emergência", "Para situações de emergência, por favor informe sua localização exata e o modelo do veículo para priorizarmos seu atendimento."⟩ ]

/-- The values of the global variables when the script starts. -/
def initialState : ServerState where
  whatsappClient := false
  clientInfo := false
  isAuthenticated := false
  activeChats := []
  ngrokUrl := none
  botConfig := some defaultBotConfig
  configFile := none

/-! ## Registry reload: `whatsappClient.on('ready')` -/

/-- The object stored for a chat of the provider list (source lines 152-158). -/
def chatSummary (chat : ProviderChat) : ChatData where
  id := chat.idSerialized
  name := jsOr chat.name chat.idUser
  lastMessage := jsOr chat.lastMessageBody "Nenhuma mensagem"
  unread := chat.unreadCount
  timestamp := chat.timestamp

/-- The statements `activeChats.clear(); chats.slice(0, 30).forEach(...)`. -/
def reloadChats (chats : List ProviderChat) : List (String × ChatData) :=
  (chats.take 30).foldl (fun acc chat => jsMapSet acc chat.idSerialized (chatSummary chat)) []

/-- Handler of the provider event `ready`. `getChats` is the result of
`whatsappClient.getChats()`, `none` when the call rejects. -/
def onReady (s : ServerState) (getChats : Option (List ProviderChat)) :
    ServerState × List Effect :=
  let s1 := { s with isAuthenticated := true }
  match getChats with
  | none => (s1, [.broadcast (.whatsappStatus "ready"), .provider .getChats])
  | some chats =>
    let m := reloadChats chats
    ({ s1 with activeChats := m },
      [.broadcast (.whatsappStatus "ready"), .provider .getChats,
       .broadcast (.chatListUpdate m)])

/-! ## Message ingest: `whatsappClient.on('message')` -/

/-- What happened to the media of one message: `downloadMedia` rejected (or
returned nothing), the file name was generated but transcoding or writing
threw, or the file was stored under `fileName`. -/
inductive MediaOutcome where
  | downloadFailed
  | storeFailed (fileName : String)
  | stored (fileName : String)
deriving DecidableEq, Repr

/-- `path.join(UPLOAD_DIR, fileName)`, relative to the script directory. -/
def uploadPath (fileName : String) : String := "uploads/" ++ fileName

/-- The media block shared by the message and the history handlers: the values
of `messageContent`, `isMedia` and `filePath` after it. -/
def materialize (msg : ProviderMessage) (media : MediaOutcome) : String × Bool × String :=
  if msg.hasMedia then
    match media with
    | .downloadFailed => ("[Mídia não disponível]", true, "")
    | .storeFailed fileName => ("[Mídia não disponível]", true, uploadPath fileName)
    | .stored fileName => ("/uploads/" ++ fileName, true, uploadPath fileName)
  else (msg.body, false, "")

/-- Provider and file-system effects of the media block. -/
def materializeEffects (msg : ProviderMessage) (media : MediaOutcome) : List Effect :=
  if msg.hasMedia then
    match media with
    | .stored fileName => [.provider .downloadMedia, .writeUpload fileName]
    | _ => [.provider .downloadMedia]
  else []

/-- Outcome of the provider calls awaited by the message handler. -/
structure MessageOutcome where
  getChat : Option ProviderChat
  media : MediaOutcome
  sendSeen : Bool
deriving DecidableEq, Repr

/-- The rule picked by `botConfig.autoReplies.find(...)` (source lines 243-245). -/
def findAutoReply (lc : String → String) (rules : List AutoReply) (body : String) :
    Option AutoReply :=
  rules.find? fun reply => jsIncludes (lc body) (lc reply.trigger)

/-- Source lines 242-256: the keyword reply timer. -/
def keywordReplyBlock (lc : String → String) (cfg : BotConfig) (chatId body : String) :
    List Effect :=
  if cfg.status = "active" then
    match findAutoReply lc cfg.autoReplies body with
    | some reply => [.setTimeout (.keywordReply chatId reply.content) 1500]
    | none => []
  else []

/-- Source lines 258-267: the greeting timer; `unread` is `chatData.unread`. -/
def greetingBlock (cfg : BotConfig) (chatId : String) (unread : Nat) : List Effect :=
  if unread = 1 ∧ cfg.status = "active" then [.setTimeout (.greeting chatId) 1000] else []

/-- Source lines 241-267: what the handler schedules once `sendSeen` has resolved. -/
def autoReplyBlock (lc : String → String) (cfg : BotConfig) (chatId body : String)
    (unread : Nat) : List Effect :=
  keywordReplyBlock lc cfg chatId body ++ greetingBlock cfg chatId unread

/-- The entry written by the message handler (source lines 205-215). -/
def updatedChatData (m : List (String × ChatData)) (chat : ProviderChat)
    (msg : ProviderMessage) : ChatData :=
  let chatData := (jsMapGet m chat.idSerialized).getD
    { id := chat.idSerialized, name := jsOr chat.name chat.idUser, lastMessage := "",
      unread := 0, timestamp := msg.timestamp }
  { chatData with
    lastMessage := if msg.hasMedia then "[Mídia]" else msg.body
    unread := if msg.fromMe then 0 else chatData.unread + 1
    timestamp := msg.timestamp }

/-- Handler of the provider event `message`. An exception of an awaited call
ends the handler in its outer `catch`; what was done before stands. -/
def onMessage (lc : String → String) (s : ServerState) (msg : ProviderMessage)
    (o : MessageOutcome) : ServerState × List Effect :=
  match o.getChat with
  | none => (s, [.provider .getChat])
  | some chat =>
    let chatId := chat.idSerialized
    let (messageContent, isMedia, filePath) := materialize msg o.media
    let chatData := updatedChatData s.activeChats chat msg
    let s1 := { s with activeChats := jsMapSet s.activeChats chatId chatData }
    let emitted : List Effect :=
      [.provider .getChat] ++ materializeEffects msg o.media ++
      [.broadcast (.chatUpdated
          ⟨chatId, some chatData.lastMessage, some chatData.unread, some chatData.timestamp⟩),
       .broadcast (.specificMessage
          { chatId := chatId
            sender := if msg.fromMe then "Você" else jsOr chat.name chat.idUser
            message := messageContent
            timestampMs := msg.timestamp * 1000
            isMedia := isMedia
            fromMe := msg.fromMe
            filePath := filePath })]
    if msg.fromMe then (s1, emitted)
    else if o.sendSeen then
      match s.botConfig with
      | none => (s1, emitted ++ [.provider (.sendSeen chatId)])
      | some cfg =>
        (s1, emitted ++ [.provider (.sendSeen chatId)] ++
          autoReplyBlock lc cfg chatId msg.body chatData.unread)
    else (s1, emitted ++ [.provider (.sendSeen chatId)])

/-- Body of a timer callback when it fires in state `s`; `sendOk` tells whether
`whatsappClient.sendMessage` resolved. -/
def fireTimer (s : ServerState) (t : Timer) (sendOk : Bool) : List Effect :=
  match t with
  | .keywordReply chatId content =>
    if sendOk then [.provider (.sendMessage chatId content), .broadcast (.autoReply chatId content)]
    else [.provider (.sendMessage chatId content)]
  | .greeting chatId =>
    match s.botConfig with
    | none => []
    | some cfg =>
      if sendOk then
        [.provider (.sendMessage chatId cfg.greeting), .broadcast (.autoReply chatId cfg.greeting)]
      else [.provider (.sendMessage chatId cfg.greeting)]

/-! ## Dashboard commands: handlers registered in `io.on('connection')` -/

/-- Truthiness of an optional string: `undefined`, `null` and the empty string are falsy. -/
def truthy (a : Option String) : Bool :=
  match a with
  | none => false
  | some x => x ≠ ""

/-- The guard `!whatsappClient || !isAuthenticated` shared by the commands
that call the provider. -/
def clientUsable (s : ServerState) : Bool := s.whatsappClient && s.isAuthenticated

/-- Outcome of the provider calls awaited by `mark-read`. -/
structure MarkReadOutcome where
  getChatById : Bool
  sendSeen : Bool
deriving DecidableEq, Repr

/-- Handler of `mark-read` (source lines 439-456). -/
def onMarkRead (s : ServerState) (chatId : Option String) (o : MarkReadOutcome) :
    ServerState × List Effect :=
  match chatId with
  | none => (s, [])
  | some c =>
    if !clientUsable s || c = "" then (s, [])
    else if !o.getChatById then (s, [.provider (.getChatById c)])
    else if !o.sendSeen then (s, [.provider (.getChatById c), .provider (.sendSeen c)])
    else
      match jsMapGet s.activeChats c with
      | some chatData =>
        ({ s with activeChats := jsMapSet s.activeChats c { chatData with unread := 0 } },
          [.provider (.getChatById c), .provider (.sendSeen c),
           .broadcast (.chatUpdated ⟨c, none, some 0, none⟩)])
      | none => (s, [.provider (.getChatById c), .provider (.sendSeen c)])

/-- Outcome of `whatsappClient.sendMessage` in `send-message`, with the clock
reading used for `message-status`. -/
structure SendOutcome where
  send : Except String SentMsg
  now : Nat

/-- Handler of `send-message` (source lines 398-436). -/
def onSendMessage (s : ServerState) (chatId message : Option String) (o : SendOutcome) :
    ServerState × List Effect :=
  match chatId, message with
  | some c, some m =>
    if !clientUsable s || c = "" || m = "" then (s, [])
    else
      match o.send with
      | .error e =>
        (s, [.provider (.sendMessage c m), .toSocket (.error ("Falha no envio: " ++ e))])
      | .ok sentMsg =>
        let confirm : List Effect :=
          [.toSocket (.messageSent c sentMsg.idId (sentMsg.timestamp * 1000)),
           .toSocket (.messageStatus c "sent" sentMsg.idId o.now)]
        match jsMapGet s.activeChats c with
        | some chatData =>
          let chatData1 := { chatData with lastMessage := m, timestamp := sentMsg.timestamp }
          ({ s with activeChats := jsMapSet s.activeChats c chatData1 },
            [.provider (.sendMessage c m),
             .broadcast (.chatUpdated ⟨c, some m, some 0, some sentMsg.timestamp⟩)] ++ confirm)
        | none => (s, [.provider (.sendMessage c m)] ++ confirm)
  | _, _ => (s, [])

/-- Outcome of the calls made by `send-file`: the send, the generated UUID and
whether `writeFileSync` threw (with its message). -/
structure SendFileOutcome where
  send : Except String SentMsg
  uuid : String
  write : Except String Unit

/-- The expression `file.name.split('.').pop()`. -/
def fileExtension (name : String) : String := (name.splitOn ".").getLastD ""

/-- Handler of `send-file` (source lines 459-500). -/
def onSendFile (s : ServerState) (chatId : Option String) (file : Option UploadFile)
    (o : SendFileOutcome) : ServerState × List Effect :=
  match chatId, file with
  | some c, some f =>
    if !clientUsable s || c = "" then (s, [])
    else
      match o.send with
      | .error e =>
        (s, [.provider (.sendMedia c f), .toSocket (.error ("Falha no envio do arquivo: " ++ e))])
      | .ok sentMsg =>
        let fileName := o.uuid ++ "." ++ fileExtension f.name
        match o.write with
        | .error e =>
          (s, [.provider (.sendMedia c f),
               .toSocket (.error ("Falha no envio do arquivo: " ++ e))])
        | .ok _ =>
          let confirm : List Effect :=
            [.toSocket (.fileUploaded c f.name ("/uploads/" ++ fileName)
              (sentMsg.timestamp * 1000))]
          match jsMapGet s.activeChats c with
          | some chatData =>
            let chatData1 :=
              { chatData with lastMessage := "[Arquivo]", timestamp := sentMsg.timestamp }
            ({ s with activeChats := jsMapSet s.activeChats c chatData1 },
              [.provider (.sendMedia c f), .writeUpload fileName,
               .broadcast (.chatUpdated ⟨c, some "[Arquivo]", none, some sentMsg.timestamp⟩)]
                ++ confirm)
          | none => (s, [.provider (.sendMedia c f), .writeUpload fileName] ++ confirm)
  | _, _ => (s, [])

/-- Outcome of the provider calls of `load-chat-history`: the chat, and the
fetched messages (oldest first) each with what happens to its media. -/
structure HistoryOutcome where
  getChatById : Option ProviderChat
  fetchMessages : Option (List (ProviderMessage × MediaOutcome))
deriving DecidableEq, Repr

/-- The `historic-message` payload built for one message (source lines 358-386). -/
def historicPayload (chatId : String) (chat : ProviderChat) (msg : ProviderMessage)
    (media : MediaOutcome) : MessagePayload :=
  let (messageContent, isMedia, filePath) := materialize msg media
  { chatId := chatId
    sender := if msg.fromMe then "Você" else jsOr msg.notifyName chat.idUser
    message := messageContent
    timestampMs := msg.timestamp * 1000
    isMedia := isMedia
    fromMe := msg.fromMe
    filePath := filePath }

/-- What one `forEach` callback does before it first suspends: a message
without media is emitted at once, a message with media starts its download. -/
def historyStart (chatId : String) (chat : ProviderChat)
    (item : ProviderMessage × MediaOutcome) : List Effect :=
  if item.1.hasMedia then [.provider .downloadMedia]
  else [.toSocket (.historicMessage (historicPayload chatId chat item.1 item.2))]

/-- What one `forEach` callback does after its download has settled. -/
def historyResume (chatId : String) (chat : ProviderChat)
    (item : ProviderMessage × MediaOutcome) : List Effect :=
  if item.1.hasMedia then
    (match item.2 with
      | .stored fileName => [Effect.writeUpload fileName]
      | _ => []) ++
    [.toSocket (.historicMessage (historicPayload chatId chat item.1 item.2))]
  else []

/-- Handler of `load-chat-history` (source lines 346-395). The callbacks of
`messages.reverse().forEach(async ...)` are started in reversed order; the
ones that await a download resume after the loop, here in the order in which
they were started. -/
def onLoadChatHistory (s : ServerState) (chatId : Option String) (limit : Option Nat)
    (o : HistoryOutcome) : ServerState × List Effect :=
  match chatId with
  | none => (s, [])
  | some c =>
    if !clientUsable s || c = "" then (s, [])
    else
      match o.getChatById with
      | none =>
        (s, [.provider (.getChatById c),
             .toSocket (.loadError c "Falha ao carregar histórico")])
      | some chat =>
        match o.fetchMessages with
        | none =>
          (s, [.provider (.getChatById c), .provider (.fetchMessages c (limit.getD 50)),
               .toSocket (.loadError c "Falha ao carregar histórico")])
        | some messages =>
          (s, [.provider (.getChatById c), .provider (.fetchMessages c (limit.getD 50))] ++
              (messages.reverse.map (historyStart c chat)).flatten ++
              (messages.reverse.map (historyResume c chat)).flatten)

/-- Handler of `update-bot-config` (source lines 510-514). `writeOk` tells
whether `fs.writeFileSync` returned; when it throws, the exception leaves the
handler before `io.emit`. -/
def onUpdateBotConfig (s : ServerState) (config : Option BotConfig) (writeOk : Bool) :
    ServerState × List Effect :=
  let s1 := { s with botConfig := config }
  if writeOk then
    ({ s1 with configFile := some (.json config) },
      [.writeConfigFile config, .broadcast (.botConfigUpdated config)])
  else (s1, [])

/-- The function `loadBotConfig` (source lines 547-556). -/
def loadBotConfig (s : ServerState) : ServerState :=
  match s.configFile with
  | some (.json config) => { s with botConfig := config }
  | _ => s

/-! ## Runs of registry events -/

/-- An event that can change the registry: a provider message event with the
outcome of its awaited calls, or a `mark-read` command with its outcome. -/
inductive RegistryInput where
  | message (msg : ProviderMessage) (o : MessageOutcome)
  | markRead (chatId : Option String) (o : MarkReadOutcome)
deriving DecidableEq, Repr

/-- The state after the handler of one event has run. -/
def applyInput (lc : String → String) (s : ServerState) : RegistryInput → ServerState
  | .message msg o => (onMessage lc s msg o).1
  | .markRead chatId o => (onMarkRead s chatId o).1

/-- The state after the handlers of a sequence of events have run, one after another. -/
def runInputs (lc : String → String) (s : ServerState) (evs : List RegistryInput) :
    ServerState :=
  evs.foldl (applyInput lc) s

/-- A message event is ingested when `msg.getChat()` resolved; a mark-read is
successful when it passes the guard and both provider calls resolve. -/
def validInput (s : ServerState) : RegistryInput → Bool
  | .message _ o => o.getChat.isSome
  | .markRead chatId o => truthy chatId && clientUsable s && o.getChatById && o.sendSeen

/-- The event is a message event of conversation `c`. -/
def isMessageFor (c : String) : RegistryInput → Bool
  | .message _ o => o.getChat.map (fun chat => chat.idSerialized) == some c
  | .markRead _ _ => false

/-- The event is an inbound message of conversation `c`, not authored by the local account. -/
def isInbound (c : String) : RegistryInput → Bool
  | .message msg o => (o.getChat.map (fun chat => chat.idSerialized) == some c) && !msg.fromMe
  | .markRead _ _ => false

/-- The event is a self-authored message of conversation `c` or a mark-read of `c`. -/
def isReset (c : String) : RegistryInput → Bool
  | .message msg o => (o.getChat.map (fun chat => chat.idSerialized) == some c) && msg.fromMe
  | .markRead chatId _ => chatId == some c

/-- The number of inbound message events of `c` after the last reset of `c`
(all of them when there is no reset). -/
def unreadAfterLastReset (c : String) (evs : List RegistryInput) : Nat :=
  ((evs.reverse.takeWhile fun e => !isReset c e).filter (isInbound c)).length

/-- The unread count stored for `c`, if `c` is in the registry. -/
def storedUnread (s : ServerState) (c : String) : Option Nat :=
  (jsMapGet s.activeChats c).map fun chatData => chatData.unread

/-- The unread count of `c` as a number: 0 for a conversation not in the registry. -/
def unreadOf (s : ServerState) (c : String) : Nat := (storedUnread s c).getD 0

/-- A state with a usable provider session, an empty registry and the default config. -/
def readyState : ServerState :=
  { initialState with whatsappClient := true, clientInfo := true, isAuthenticated := true }

/-- A provider chat object with the given id. -/
def chatOf (chatId : String) : ProviderChat :=
  { idSerialized := chatId, idUser := chatId, name := none, lastMessageBody := none,
    unreadCount := 0, timestamp := 0 }

/-- An inbound text message event of `chatId` whose provider calls all resolve. -/
def inboundText (chatId body : String) : RegistryInput :=
  .message { body := body, hasMedia := false, fromMe := false, timestamp := 1, notifyName := none }
    { getChat := some (chatOf chatId), media := .downloadFailed, sendSeen := true }

/-- A self-authored text message event of `chatId`. -/
def ownText (chatId body : String) : RegistryInput :=
  .message { body := body, hasMedia := false, fromMe := true, timestamp := 1, notifyName := none }
    { getChat := some (chatOf chatId), media := .downloadFailed, sendSeen := true }

/-- A `mark-read` command for `chatId` whose provider calls resolve. -/
def markReadOk (chatId : String) : RegistryInput :=
  .markRead (some chatId) { getChatById := true, sendSeen := true }

/-- A sample run: two inbound messages of `a`, one of `b`, a mark-read of `a`,
a self-authored message of `b`, then three inbound messages of `a` around a
mark-read of `b`. -/
def sampleRun : List RegistryInput :=
  [inboundText "a" "oi", inboundText "a" "preço?", inboundText "b" "oi", markReadOk "a",
   ownText "b" "já vai", inboundText "a" "1", markReadOk "b", inboundText "a" "2",
   inboundText "a" "3"]

/-- The events among a list of effects, broadcast or sent to the requesting socket. -/
def emittedEvents : List Effect → List Event
  | [] => []
  | .broadcast e :: rest => e :: emittedEvents rest
  | .toSocket e :: rest => e :: emittedEvents rest
  | _ :: rest => emittedEvents rest

/-- The events among a list of effects that were broadcast with `io.emit`. -/
def broadcastEvents : List Effect → List Event
  | [] => []
  | .broadcast e :: rest => e :: broadcastEvents rest
  | _ :: rest => broadcastEvents rest

/-- The event is on the `chat-list-update` channel. -/
def Event.isChatListUpdate : Event → Bool
  | .chatListUpdate _ => true
  | _ => false

/-- The event is on the `chat-updated` channel. -/
def Event.isChatUpdated : Event → Bool
  | .chatUpdated _ => true
  | _ => false

/-- A provider chat list of `n` chats with the ids `x`, `xx`, `xxx`, ... -/
def sampleChats (n : Nat) : List ProviderChat :=
  (List.range n).map fun i => chatOf (String.mk (List.replicate (i + 1) 'x'))

/-- A state whose registry holds one conversation, `old`, with 4 unread messages. -/
def staleState : ServerState :=
  { readyState with
    activeChats := [("old", { id := "old", name := "Old", lastMessage := "?", unread := 4,
                              timestamp := 9 })] }

/-- The timers among a list of effects, with their delays, in scheduling order. -/
def scheduledTimers (fx : List Effect) : List (Timer × Nat) :=
  fx.filterMap fun
    | .setTimeout t delay => some (t, delay)
    | _ => none

/-- The keyword reply intents among a list of effects: conversation and reply text. -/
def keywordIntents (fx : List Effect) : List (String × String) :=
  fx.filterMap fun
    | .setTimeout (.keywordReply chatId content) _ => some (chatId, content)
    | _ => none

/-- The greeting intents among a list of effects: the conversation greeted. -/
def greetingIntents (fx : List Effect) : List String :=
  fx.filterMap fun
    | .setTimeout (.greeting chatId) _ => some chatId
    | _ => none

/-- The trigger is a case-insensitive substring of the body: lower-cased, its
characters occur contiguously in the lower-cased body. -/
def CaseInsensitiveSubstring (lc : String → String) (trigger body : String) : Prop :=
  (lc trigger).data <:+: (lc body).data

/-- Rule `r` is the first rule of the list whose trigger is a case-insensitive
substring of the body. -/
def FirstMatch (lc : String → String) (rules : List AutoReply) (body : String)
    (r : AutoReply) : Prop :=
  ∃ pre post, rules = pre ++ r :: post ∧
    (∀ x ∈ pre, ¬ CaseInsensitiveSubstring lc x.trigger body) ∧
    CaseInsensitiveSubstring lc r.trigger body

/-- An inbound text message, as the provider reports it. -/
def textMessage (body : String) : ProviderMessage :=
  { body := body, hasMedia := false, fromMe := false, timestamp := 1, notifyName := none }

/-- The outcome in which every provider call of the message handler resolves,
for a message of conversation `chatId`. -/
def allResolve (chatId : String) : MessageOutcome :=
  { getChat := some (chatOf chatId), media := .downloadFailed, sendSeen := true }

/-- The default config with the bot paused. -/
def pausedBotConfig : BotConfig := { defaultBotConfig with status := "paused" }

/-- A usable session with an empty registry and the bot paused. -/
def pausedState : ServerState := { readyState with botConfig := some pausedBotConfig }

/-- The message handler from the moment `getChat` and the media download have
settled up to its suspension at `await chat.sendSeen()` (source lines 203-239):
the registry update, the two broadcasts and, for an inbound message, the call
of `sendSeen`. No `await` occurs in between. -/
def onMessageStart (s : ServerState) (msg : ProviderMessage) (o : MessageOutcome) :
    ServerState × List Effect :=
  match o.getChat with
  | none => (s, [.provider .getChat])
  | some chat =>
    let chatId := chat.idSerialized
    let (messageContent, isMedia, filePath) := materialize msg o.media
    let chatData := updatedChatData s.activeChats chat msg
    let s1 := { s with activeChats := jsMapSet s.activeChats chatId chatData }
    let emitted : List Effect :=
      [.provider .getChat] ++ materializeEffects msg o.media ++
      [.broadcast (.chatUpdated
          ⟨chatId, some chatData.lastMessage, some chatData.unread, some chatData.timestamp⟩),
       .broadcast (.specificMessage
          { chatId := chatId
            sender := if msg.fromMe then "Você" else jsOr chat.name chat.idUser
            message := messageContent
            timestampMs := msg.timestamp * 1000
            isMedia := isMedia
            fromMe := msg.fromMe
            filePath := filePath })]
    if msg.fromMe then (s1, emitted) else (s1, emitted ++ [.provider (.sendSeen chatId)])

/-- The message handler from the moment `sendSeen` has settled to its end
(source lines 239-268), in the state `s` of that moment: `botConfig` is the
global read then, and `unread` is the value that `chatData.unread` has then. -/
def onMessageResume (lc : String → String) (s : ServerState) (msg : ProviderMessage)
    (o : MessageOutcome) (unread : Nat) : List Effect :=
  match o.getChat with
  | none => []
  | some chat =>
    if msg.fromMe then []
    else if o.sendSeen then
      match s.botConfig with
      | none => []
      | some cfg => autoReplyBlock lc cfg chat.idSerialized msg.body unread
    else []

/-- A turn of the event loop on the message handlers: the handler of a message
runs up to its `await chat.sendSeen()`, or a suspended handler resumes. -/
inductive LoopStep where
  | start (msg : ProviderMessage) (o : MessageOutcome)
  | resume (msg : ProviderMessage) (o : MessageOutcome)
deriving DecidableEq, Repr

/-- The message handlers run in the order of a schedule of turns: the final
state and, per turn, the effects of that turn. The `chatData` of a suspended
handler is the object stored in the registry under its conversation id, which
message handlers update in place and never replace, so on resumption
`chatData.unread` is the count stored at that moment. -/
def runLoop (lc : String → String) (s : ServerState) :
    List LoopStep → ServerState × List (List Effect)
  | [] => (s, [])
  | .start msg o :: rest =>
    let r := onMessageStart s msg o
    let t := runLoop lc r.1 rest
    (t.1, r.2 :: t.2)
  | .resume msg o :: rest =>
    let unread :=
      match o.getChat with
      | some chat => unreadOf s chat.idSerialized
      | none => 0
    let t := runLoop lc s rest
    (t.1, onMessageResume lc s msg o unread :: t.2)

/-- The schedule in which the handler of each message runs to its end before
the handler of the next message starts. -/
def sequentialSchedule : List (ProviderMessage × MessageOutcome) → List LoopStep
  | [] => []
  | (msg, o) :: rest => .start msg o :: .resume msg o :: sequentialSchedule rest

/-- Two inbound messages of the new conversation `a` arriving back to back:
the handler of the second one starts while the first one still awaits
`sendSeen`. -/
def overlappingSchedule : List LoopStep :=
  [.start (textMessage "oi") (allResolve "a"), .start (textMessage "tudo bem?") (allResolve "a"),
   .resume (textMessage "oi") (allResolve "a"), .resume (textMessage "tudo bem?") (allResolve "a")]

/-- Three inbound messages of conversation `a`; the first one matches a keyword rule. -/
def sampleStreak : List (ProviderMessage × MessageOutcome) :=
  [(textMessage "qual o preço?", allResolve "a"), (textMessage "oi", allResolve "a"),
   (textMessage "alô", allResolve "a")]

/-- A usable session whose registry holds conversation `a` with 3 unread messages. -/
def unreadState : ServerState :=
  { readyState with
    activeChats := [("a", { id := "a", name := "Ana", lastMessage := "oi", unread := 3,
                            timestamp := 4 })] }

/-- A `send-message` outcome in which the provider confirms the send at time 5. -/
def sendOk : SendOutcome := { send := .ok { idId := "m1", timestamp := 5 }, now := 6 }

/-- A `send-file` outcome in which the send and the file write both succeed. -/
def sendFileOk : SendFileOutcome :=
  { send := .ok { idId := "m2", timestamp := 5 }, uuid := "u", write := .ok () }

/-- A small file to send. -/
def sampleFile : UploadFile := { mimetype := "text/plain", data := "b2k=", name := "nota.txt" }

/-- The outcome in which `getChat` resolves for conversation `chatId` and the
read receipt `sendSeen` rejects. -/
def seenRejects (chatId : String) : MessageOutcome :=
  { getChat := some (chatOf chatId), media := .downloadFailed, sendSeen := false }

/-- The event is on the `load-error` channel. -/
def Event.isLoadError : Event → Bool
  | .loadError _ _ => true
  | _ => false

/-- The `historic-message` event of one fetched message. -/
def historicEvent (chatId : String) (chat : ProviderChat)
    (item : ProviderMessage × MediaOutcome) : Event :=
  .historicMessage (historicPayload chatId chat item.1 item.2)

/-- A media message as the provider reports it. -/
def mediaMessage (timestamp : Nat) : ProviderMessage :=
  { body := "", hasMedia := true, fromMe := false, timestamp := timestamp, notifyName := none }

/-- A fetched batch of three messages: a text, a media message whose download
fails, and a media message that is stored. -/
def sampleHistory : HistoryOutcome :=
  { getChatById := some (chatOf "a")
    fetchMessages := some
      [(textMessage "oi", .downloadFailed), (mediaMessage 2, .downloadFailed),
       (mediaMessage 3, .stored "f.jpg")] }

/-! ## Observer connection: `io.on('connection')` -/

/-- The state change of `initWhatsAppClient` when no client exists yet: a new
client object is created, which has no `info` until the session is ready. -/
def initWhatsAppClient (s : ServerState) : ServerState :=
  { s with whatsappClient := true, clientInfo := false }

/-- Handler of a new socket connection (source lines 319-343), up to the
registration of the socket's own handlers. Reading `whatsappClient.info` with
`isAuthenticated` set and no client object throws before anything is emitted. -/
def onConnection (s : ServerState) : ServerState × List Effect :=
  if s.isAuthenticated && !s.whatsappClient then (s, [])
  else
    let status : List Effect :=
      if s.isAuthenticated then
        [.toSocket (.whatsappStatus (if s.clientInfo then "ready" else "connected"))]
      else []
    let chats : List Effect :=
      if s.activeChats.length > 0 then [.toSocket (.chatListUpdate s.activeChats)] else []
    let tunnel : List Effect :=
      match s.ngrokUrl with
      | some url => if url ≠ "" then [.toSocket (.ngrokUrl url)] else []
      | none => []
    let fx := status ++ chats ++ tunnel ++ [.toSocket (.botConfig s.botConfig)]
    if s.whatsappClient then (s, fx) else (initWhatsAppClient s, fx)

/-- The events among a list of effects that were sent to the requesting socket. -/
def socketEvents : List Effect → List Event
  | [] => []
  | .toSocket e :: rest => e :: socketEvents rest
  | _ :: rest => socketEvents rest

/-- The event carries a message: `specific-message`, `historic-message` or `auto-reply`. -/
def Event.isMessageEvent : Event → Bool
  | .specificMessage _ => true
  | .historicMessage _ => true
  | .autoReply _ _ => true
  | _ => false

/-- The replay for a new observer, in the words of the specification: the
current status if the session is authenticated, the registry snapshot if the
registry is not empty, the tunnel URL if it is known, then the bot config. -/
def replayForObserver (s : ServerState) : List Event :=
  [ if s.isAuthenticated = true then
      some (Event.whatsappStatus (if s.clientInfo = true then "ready" else "connected"))
    else none,
    if s.activeChats = [] then none else some (Event.chatListUpdate s.activeChats),
    (s.ngrokUrl.filter fun url => url ≠ "").map Event.ngrokUrl,
    some (Event.botConfig s.botConfig) ].filterMap id

/-- A ready session with two conversations in the registry and a tunnel URL. -/
def busyState : ServerState :=
  { readyState with
    activeChats :=
      [("a", { id := "a", name := "Ana", lastMessage := "oi", unread := 1, timestamp := 4 }),
       ("b", { id := "b", name := "Bia", lastMessage := "ok", unread := 0, timestamp := 2 })]
    ngrokUrl := some "https://t.example" }

/-! ## Order of the registry snapshot -/

/-- An event of a session after a reload: a provider message, a `mark-read`,
a `send-message` or a `send-file`, each with the outcome of its awaited calls. -/
inductive SessionInput where
  | registry (e : RegistryInput)
  | sendMessage (chatId message : Option String) (o : SendOutcome)
  | sendFile (chatId : Option String) (file : Option UploadFile) (o : SendFileOutcome)

/-- The state after the handler of one session event has run. -/
def applySessionInput (lc : String → String) (s : ServerState) : SessionInput → ServerState
  | .registry e => applyInput lc s e
  | .sendMessage chatId message o => (onSendMessage s chatId message o).1
  | .sendFile chatId file o => (onSendFile s chatId file o).1

/-- The state after the handlers of a sequence of session events have run. -/
def runSession (lc : String → String) (s : ServerState) (evs : List SessionInput) :
    ServerState :=
  evs.foldl (applySessionInput lc) s

/-- The conversation of an ingested message event; `none` for every other event. -/
def messageConversation : SessionInput → Option String
  | .registry (.message _ o) => o.getChat.map fun chat => chat.idSerialized
  | _ => none

/-- The conversation ids of the snapshot `Array.from(activeChats.entries())`, in its order. -/
def snapshotIds (s : ServerState) : List String := s.activeChats.map Prod.fst

/-- The distinct elements of a list in the order of their first occurrence. -/
def firstOccurrences : List String → List String
  | [] => []
  | x :: xs => x :: (firstOccurrences xs).filter fun y => y ≠ x

/-- A provider chat list in which the id `b` occurs twice. -/
def repeatedChats : List ProviderChat := [chatOf "b", chatOf "a", chatOf "b"]

/-- A session after a reload: a message of the new conversation `c`, a later
message of the reloaded conversation `a`, a mark-read of `b`, a send to `a`,
a message of the new conversation `d` and another message of `c`. -/
def sampleSession : List SessionInput :=
  [.registry (inboundText "c" "oi"),
   .registry (.message { body := "tarde", hasMedia := false, fromMe := false, timestamp := 99,
                         notifyName := none } (allResolve "a")),
   .registry (markReadOk "b"), .sendMessage (some "a") (some "ok") sendOk,
   .registry (inboundText "d" "oi"), .registry (inboundText "c" "de novo")]

/-- The key order of a `Map` after `set(k, ...)`: unchanged when `k` is
present, `k` appended when it is new. -/
def addKey (keys : List String) (k : String) : List String :=
  if k ∈ keys then keys else keys ++ [k]

/-- Map `m2` is `m` itself or `m` with the value of one present key replaced
by a value with the same `id` field. -/
def UpdatesInPlace (m m2 : List (String × ChatData)) : Prop :=
  m2 = m ∨ ∃ k old new, jsMapGet m k = some old ∧ new.id = old.id ∧ m2 = jsMapSet m k new

/-- Every entry's `id` field equals its key. -/
def IdsMatch (m : List (String × ChatData)) : Prop := ∀ p ∈ m, p.2.id = p.1

/-! # Theorems -/

/-! ## Lemmas on the registry map -/

theorem jsMapGet_set_same (m : List (String × ChatData)) (k : String) (v : ChatData) :
    jsMapGet (jsMapSet m k v) k = some v := by
  induction m with
  | nil => simp [jsMapSet, jsMapGet]
  | cons p rest ih =>
    obtain ⟨k', v'⟩ := p
    by_cases h : k' = k
    · simp [jsMapSet, jsMapGet, h]
    · simp [jsMapSet, jsMapGet, h, ih]

theorem jsMapGet_set_other (m : List (String × ChatData)) (k k2 : String) (v : ChatData)
    (hne : k ≠ k2) : jsMapGet (jsMapSet m k v) k2 = jsMapGet m k2 := by
  induction m with
  | nil => simp [jsMapSet, jsMapGet, hne]
  | cons p rest ih =>
    obtain ⟨k', v'⟩ := p
    by_cases h : k' = k
    · subst h; simp [jsMapSet, jsMapGet, hne]
    · simp only [jsMapSet, h, if_false, jsMapGet, ih]

theorem onMessage_activeChats (lc : String → String) (s : ServerState) (msg : ProviderMessage)
    (o : MessageOutcome) (chat : ProviderChat) (h : o.getChat = some chat) :
    (onMessage lc s msg o).1.activeChats =
      jsMapSet s.activeChats chat.idSerialized (updatedChatData s.activeChats chat msg) := by
  unfold onMessage
  simp only [h]
  split <;> (try split) <;> (try split) <;> rfl

theorem onMessage_flags (lc : String → String) (s : ServerState) (msg : ProviderMessage)
    (o : MessageOutcome) :
    (onMessage lc s msg o).1.whatsappClient = s.whatsappClient ∧
    (onMessage lc s msg o).1.isAuthenticated = s.isAuthenticated ∧
    (onMessage lc s msg o).1.botConfig = s.botConfig := by
  unfold onMessage
  split
  · exact ⟨rfl, rfl, rfl⟩
  · simp only
    split <;> (try split) <;> (try split) <;> exact ⟨rfl, rfl, rfl⟩

theorem onMarkRead_flags (s : ServerState) (chatId : Option String) (o : MarkReadOutcome) :
    (onMarkRead s chatId o).1.whatsappClient = s.whatsappClient ∧
    (onMarkRead s chatId o).1.isAuthenticated = s.isAuthenticated ∧
    (onMarkRead s chatId o).1.botConfig = s.botConfig := by
  unfold onMarkRead
  split
  · exact ⟨rfl, rfl, rfl⟩
  · split
    · exact ⟨rfl, rfl, rfl⟩
    · split
      · exact ⟨rfl, rfl, rfl⟩
      · split
        · exact ⟨rfl, rfl, rfl⟩
        · split <;> exact ⟨rfl, rfl, rfl⟩

/-- On a command that passes the guard and whose provider calls resolve,
`mark-read` zeroes the stored entry of the conversation, if there is one. -/
theorem onMarkRead_activeChats (s : ServerState) (c : String) (o : MarkReadOutcome)
    (hc : c ≠ "") (hs : clientUsable s = true) (h1 : o.getChatById = true)
    (h2 : o.sendSeen = true) :
    (onMarkRead s (some c) o).1.activeChats =
      match jsMapGet s.activeChats c with
      | some chatData => jsMapSet s.activeChats c { chatData with unread := 0 }
      | none => s.activeChats := by
  unfold onMarkRead
  simp only [hs, hc, h1, h2]
  cases jsMapGet s.activeChats c <;> simp

theorem clientUsable_applyInput (lc : String → String) (s : ServerState) (e : RegistryInput) :
    clientUsable (applyInput lc s e) = clientUsable s := by
  cases e with
  | message msg o =>
    obtain ⟨h1, h2, _⟩ := onMessage_flags lc s msg o
    simp [applyInput, clientUsable, h1, h2]
  | markRead chatId o =>
    obtain ⟨h1, h2, _⟩ := onMarkRead_flags s chatId o
    simp [applyInput, clientUsable, h1, h2]

theorem clientUsable_runInputs (lc : String → String) (evs : List RegistryInput)
    (s : ServerState) : clientUsable (runInputs lc s evs) = clientUsable s := by
  induction evs generalizing s with
  | nil => rfl
  | cons e rest ih =>
    simp only [runInputs, List.foldl_cons] at ih ⊢
    rw [ih, clientUsable_applyInput]

theorem validInput_congr (s s2 : ServerState) (e : RegistryInput)
    (h : clientUsable s2 = clientUsable s) : validInput s2 e = validInput s e := by
  cases e <;> simp [validInput, h]

/-- One event changes the unread count of `c` by the rule of the registry:
an inbound message of `c` adds 1, a reset of `c` gives 0, anything else keeps it. -/
theorem unreadOf_applyInput (lc : String → String) (s : ServerState) (c : String)
    (e : RegistryInput) (hv : validInput s e = true) :
    unreadOf (applyInput lc s e) c =
      if isInbound c e then unreadOf s c + 1
      else if isReset c e then 0 else unreadOf s c := by
  cases e with
  | message msg o =>
    cases hg : o.getChat with
    | none => simp [validInput, hg] at hv
    | some chat =>
      simp only [applyInput, unreadOf, storedUnread, onMessage_activeChats lc s msg o chat hg,
        isInbound, isReset, hg, Option.map_some']
      by_cases hc : chat.idSerialized = c
      · subst hc
        rw [jsMapGet_set_same]
        cases hm : jsMapGet s.activeChats chat.idSerialized <;>
          cases hf : msg.fromMe <;> simp [updatedChatData, hm, hf]
      · rw [jsMapGet_set_other _ _ _ _ hc]
        simp [hc]
  | markRead chatId o =>
    simp only [validInput, Bool.and_eq_true] at hv
    obtain ⟨⟨⟨ht, hs⟩, h1⟩, h2⟩ := hv
    cases chatId with
    | none => simp [truthy] at ht
    | some c' =>
      have hne : c' ≠ "" := by simpa [truthy] using ht
      simp only [applyInput, unreadOf, storedUnread, onMarkRead_activeChats s c' o hne hs h1 h2,
        isInbound, isReset]
      by_cases hc : c' = c
      · subst hc
        cases hm : jsMapGet s.activeChats c' with
        | none => simp [hm]
        | some cd => simp [jsMapGet_set_same]
      · cases hm : jsMapGet s.activeChats c' with
        | none => simp [hc]
        | some cd => simp [jsMapGet_set_other _ _ _ _ hc, hc]

/-- A conversation is in the registry after an event exactly when it was
there before or the event is an ingested message of it. -/
theorem present_applyInput (lc : String → String) (s : ServerState) (c : String)
    (e : RegistryInput) :
    (jsMapGet (applyInput lc s e).activeChats c).isSome =
      ((jsMapGet s.activeChats c).isSome || isMessageFor c e) := by
  cases e with
  | message msg o =>
    cases hg : o.getChat with
    | none => simp [applyInput, onMessage, hg, isMessageFor]
    | some chat =>
      simp only [applyInput, onMessage_activeChats lc s msg o chat hg, isMessageFor, hg,
        Option.map_some']
      by_cases hc : chat.idSerialized = c
      · subst hc; simp [jsMapGet_set_same]
      · simp [jsMapGet_set_other _ _ _ _ hc, hc]
  | markRead chatId o =>
    simp only [applyInput, isMessageFor, Bool.or_false]
    unfold onMarkRead
    split
    · rfl
    · rename_i c'
      split
      · rfl
      · split
        · rfl
        · split
          · rfl
          · split
            · rename_i cd hm
              by_cases hc : c' = c
              · subst hc; simp [jsMapGet_set_same, hm]
              · simp [jsMapGet_set_other _ _ _ _ hc]
            · rfl

theorem runInputs_snoc (lc : String → String) (s : ServerState) (evs : List RegistryInput)
    (e : RegistryInput) :
    runInputs lc s (evs ++ [e]) = applyInput lc (runInputs lc s evs) e := by
  simp [runInputs, List.foldl_append]

theorem unreadAfterLastReset_snoc (c : String) (evs : List RegistryInput) (e : RegistryInput) :
    unreadAfterLastReset c (evs ++ [e]) =
      if isInbound c e then unreadAfterLastReset c evs + 1
      else if isReset c e then 0 else unreadAfterLastReset c evs := by
  unfold unreadAfterLastReset
  rw [List.reverse_append, List.reverse_singleton, List.singleton_append]
  by_cases hr : isReset c e = true
  · have hi : isInbound c e = false := by
      cases e with
      | message msg o =>
        simp only [isReset, Bool.and_eq_true] at hr
        simp [isInbound, hr.2]
      | markRead chatId o => rfl
    simp [List.takeWhile_cons, hr, hi]
  · have hr' : isReset c e = false := by simpa using hr
    by_cases hi : isInbound c e = true
    · simp [List.takeWhile_cons, hr', hi, List.filter_cons]
    · have hi' : isInbound c e = false := by simpa using hi
      simp [List.takeWhile_cons, hr', hi', List.filter_cons]

theorem unreadOf_runInputs_snoc (lc : String → String) (s : ServerState) (c : String)
    (pre : List RegistryInput) (e : RegistryInput) (hv : validInput s e = true) :
    unreadOf (runInputs lc s (pre ++ [e])) c =
      if isInbound c e then unreadOf (runInputs lc s pre) c + 1
      else if isReset c e then 0 else unreadOf (runInputs lc s pre) c := by
  rw [runInputs_snoc]
  apply unreadOf_applyInput
  rw [validInput_congr s _ e (clientUsable_runInputs lc pre s)]
  exact hv

theorem unreadOf_runInputs (lc : String → String) (s : ServerState) (c : String)
    (evs : List RegistryInput) (habsent : jsMapGet s.activeChats c = none)
    (hvalid : ∀ e ∈ evs, validInput s e = true) :
    unreadOf (runInputs lc s evs) c = unreadAfterLastReset c evs := by
  induction evs using List.reverseRecOn with
  | nil => simp [runInputs, unreadOf, storedUnread, habsent, unreadAfterLastReset]
  | append_singleton pre e ih =>
    have hpre : ∀ x ∈ pre, validInput s x = true := fun x hx =>
      hvalid x (List.mem_append_left _ hx)
    have he : validInput s e = true := hvalid e (by simp)
    rw [unreadOf_runInputs_snoc lc s c pre e he, unreadAfterLastReset_snoc, ih hpre]

theorem present_runInputs (lc : String → String) (c : String) (evs : List RegistryInput)
    (s : ServerState) :
    (jsMapGet (runInputs lc s evs).activeChats c).isSome =
      ((jsMapGet s.activeChats c).isSome || evs.any (isMessageFor c)) := by
  induction evs generalizing s with
  | nil => simp [runInputs]
  | cons e rest ih =>
    simp only [runInputs, List.foldl_cons, List.any_cons] at ih ⊢
    rw [ih, present_applyInput, Bool.or_assoc]

/-- C1. Starting from a registry in which conversation `c` is absent, after
any sequence of ingested message events and successful mark-reads that holds at
least one message event of `c`, the unread count stored for `c` is the number
of inbound messages of `c` after the last self-authored message or mark-read of
`c`; and along the run each inbound message of `c` adds exactly 1, each reset
of `c` gives 0, and every other event leaves the count of `c` as it was. -/
theorem unread_count_after_events (lc : String → String) (s : ServerState) (c : String)
    (evs : List RegistryInput) (habsent : jsMapGet s.activeChats c = none)
    (hvalid : ∀ e ∈ evs, validInput s e = true)
    (hmsg : ∃ e ∈ evs, isMessageFor c e = true) :
    storedUnread (runInputs lc s evs) c = some (unreadAfterLastReset c evs) ∧
    ∀ (pre : List RegistryInput) (e : RegistryInput), pre ++ [e] <+: evs →
      unreadOf (runInputs lc s (pre ++ [e])) c =
        if isInbound c e then unreadOf (runInputs lc s pre) c + 1
        else if isReset c e then 0 else unreadOf (runInputs lc s pre) c := by
  constructor
  · have hsome : (jsMapGet (runInputs lc s evs).activeChats c).isSome = true := by
      rw [present_runInputs, Bool.or_eq_true]
      right
      exact List.any_eq_true.mpr hmsg
    have hval := unreadOf_runInputs lc s c evs habsent hvalid
    unfold unreadOf storedUnread at hval
    unfold storedUnread
    cases hget : jsMapGet (runInputs lc s evs).activeChats c with
    | none => simp [hget] at hsome
    | some cd =>
      rw [hget] at hval
      simpa using hval
  · intro pre e hpre
    apply unreadOf_runInputs_snoc
    apply hvalid
    obtain ⟨t, ht⟩ := hpre
    rw [← ht]
    simp

theorem unread_count_after_events_witness :
    storedUnread (runInputs lowerLatin readyState sampleRun) "a" =
      some (unreadAfterLastReset "a" sampleRun) ∧
    unreadAfterLastReset "a" sampleRun = 3 :=
  ⟨(unread_count_after_events lowerLatin readyState "a" sampleRun (by decide) (by decide)
      (by decide)).1, by decide⟩

/-! ## Registry reload -/

theorem jsMapSet_fresh (m : List (String × ChatData)) (k : String) (v : ChatData)
    (hk : k ∉ m.map Prod.fst) : jsMapSet m k v = m ++ [(k, v)] := by
  induction m with
  | nil => rfl
  | cons p rest ih =>
    obtain ⟨k', v'⟩ := p
    simp only [List.map_cons, List.mem_cons, not_or] at hk
    have hne : ¬ k' = k := fun h => hk.1 h.symm
    simp [jsMapSet, hne, ih hk.2]

theorem foldl_jsMapSet_fresh (chats : List ProviderChat) (acc : List (String × ChatData))
    (hn : (chats.map fun chat => chat.idSerialized).Nodup)
    (hd : ∀ chat ∈ chats, chat.idSerialized ∉ acc.map Prod.fst) :
    chats.foldl (fun acc chat => jsMapSet acc chat.idSerialized (chatSummary chat)) acc =
      acc ++ chats.map fun chat => (chat.idSerialized, chatSummary chat) := by
  induction chats generalizing acc with
  | nil => simp
  | cons chat rest ih =>
    simp only [List.map_cons, List.nodup_cons] at hn
    have hfresh := hd chat (List.mem_cons_self _ _)
    rw [List.foldl_cons, jsMapSet_fresh acc _ _ hfresh, ih _ hn.2]
    · simp
    · intro ch hch
      simp only [List.map_append, List.map_cons, List.map_nil, List.mem_append,
        List.mem_singleton, not_or]
      refine ⟨hd ch (List.mem_cons_of_mem _ hch), ?_⟩
      intro heq
      exact hn.1 (heq ▸ List.mem_map_of_mem (fun chat => chat.idSerialized) hch)

theorem reloadChats_eq (chats : List ProviderChat)
    (hn : (chats.map fun chat => chat.idSerialized).Nodup) :
    reloadChats chats = (chats.take 30).map fun chat => (chat.idSerialized, chatSummary chat) := by
  unfold reloadChats
  have hsub : ((chats.take 30).map fun chat => chat.idSerialized).Nodup := by
    rw [List.map_take]
    exact hn.sublist (List.take_sublist _ _)
  simpa using foldl_jsMapSet_fresh (chats.take 30) [] hsub (by simp)

/-- C2. For a provider chat list with pairwise distinct ids and any prior
state, the `ready` handler leaves a registry that holds exactly the summaries
of the first `min K 30` chats of the list, in list order, whatever the registry
held before; it broadcasts exactly one `chat-list-update`, carrying that
snapshot, and no `chat-updated`. -/
theorem ready_reloads_registry (s : ServerState) (chats : List ProviderChat)
    (hn : (chats.map fun chat => chat.idSerialized).Nodup) :
    (onReady s (some chats)).1.activeChats =
      (chats.take 30).map (fun chat => (chat.idSerialized, chatSummary chat)) ∧
    (onReady s (some chats)).1.activeChats.length = min chats.length 30 ∧
    (chats.length ≤ 30 → (onReady s (some chats)).1.activeChats =
      chats.map fun chat => (chat.idSerialized, chatSummary chat)) ∧
    (emittedEvents (onReady s (some chats)).2).filter Event.isChatListUpdate =
      [.chatListUpdate (onReady s (some chats)).1.activeChats] ∧
    (broadcastEvents (onReady s (some chats)).2).filter Event.isChatListUpdate =
      [.chatListUpdate (onReady s (some chats)).1.activeChats] ∧
    (emittedEvents (onReady s (some chats)).2).filter Event.isChatUpdated = [] := by
  have h := reloadChats_eq chats hn
  refine ⟨?_, ?_, ?_, ?_, ?_, ?_⟩
  · simp [onReady, h]
  · simp [onReady, h, Nat.min_comm]
  · intro hk
    simp [onReady, h, List.take_of_length_le hk]
  · simp [onReady, emittedEvents, Event.isChatListUpdate]
  · simp [onReady, broadcastEvents, Event.isChatListUpdate]
  · simp [onReady, emittedEvents, Event.isChatUpdated, Event.isChatListUpdate]

theorem ready_reloads_registry_witness :
    ((sampleChats 31).map fun chat => chat.idSerialized).Nodup ∧
    (onReady staleState (some (sampleChats 31))).1.activeChats.length = 30 ∧
    (onReady staleState (some (sampleChats 31))).1.activeChats =
      ((sampleChats 31).take 30).map (fun chat => (chat.idSerialized, chatSummary chat)) :=
  ⟨by decide,
   (ready_reloads_registry staleState (sampleChats 31) (by decide)).2.1,
   (ready_reloads_registry staleState (sampleChats 31) (by decide)).1⟩

/-! ## Keyword replies -/

theorem includesChars_iff (s t : List Char) : includesChars s t = true ↔ t <:+: s := by
  induction s with
  | nil => simp [includesChars]
  | cons c cs ih =>
    rw [includesChars, Bool.or_eq_true, ih, List.isPrefixOf_iff_prefix, List.infix_cons_iff]

theorem jsIncludes_iff (lc : String → String) (trigger body : String) :
    jsIncludes (lc body) (lc trigger) = true ↔ CaseInsensitiveSubstring lc trigger body :=
  includesChars_iff _ _

theorem findAutoReply_some (lc : String → String) (rules : List AutoReply) (body : String)
    (h : ∃ r ∈ rules, CaseInsensitiveSubstring lc r.trigger body) :
    ∃ r, FirstMatch lc rules body r ∧ findAutoReply lc rules body = some r := by
  induction rules with
  | nil => simp at h
  | cons x rest ih =>
    by_cases hx : CaseInsensitiveSubstring lc x.trigger body
    · refine ⟨x, ⟨[], rest, rfl, by simp, hx⟩, ?_⟩
      simp [findAutoReply, List.find?_cons, (jsIncludes_iff lc x.trigger body).mpr hx]
    · have hrest : ∃ r ∈ rest, CaseInsensitiveSubstring lc r.trigger body := by
        obtain ⟨r, hr, hm⟩ := h
        rcases List.mem_cons.mp hr with rfl | hr'
        · exact absurd hm hx
        · exact ⟨r, hr', hm⟩
      obtain ⟨r, ⟨pre, post, hsplit, hpre, hr⟩, hfind⟩ := ih hrest
      refine ⟨r, ⟨x :: pre, post, by simp [hsplit], ?_, hr⟩, ?_⟩
      · intro y hy
        rcases List.mem_cons.mp hy with rfl | hy'
        · exact hx
        · exact hpre y hy'
      · have hfalse : jsIncludes (lc body) (lc x.trigger) = false := by
          rw [← Bool.not_eq_true, jsIncludes_iff]
          exact hx
        unfold findAutoReply at hfind ⊢
        rw [List.find?_cons, hfalse]
        exact hfind

theorem findAutoReply_none (lc : String → String) (rules : List AutoReply) (body : String)
    (h : ∀ r ∈ rules, ¬ CaseInsensitiveSubstring lc r.trigger body) :
    findAutoReply lc rules body = none := by
  unfold findAutoReply
  rw [List.find?_eq_none]
  intro r hr hm
  exact h r hr ((jsIncludes_iff lc r.trigger body).mp hm)

theorem keywordIntents_greetingBlock (cfg : BotConfig) (chatId : String) (unread : Nat) :
    keywordIntents (greetingBlock cfg chatId unread) = [] := by
  unfold greetingBlock
  split <;> rfl

theorem materializeEffects_no_timer (msg : ProviderMessage) (media : MediaOutcome) :
    scheduledTimers (materializeEffects msg media) = [] := by
  unfold materializeEffects
  cases msg.hasMedia <;> cases media <;> rfl

/-- The effects of the message handler when it runs to its end on an inbound
message: what it emits first, then the read receipt, then the auto-reply block. -/
theorem onMessage_effects_completed (lc : String → String) (s : ServerState)
    (msg : ProviderMessage) (o : MessageOutcome) (chat : ProviderChat) (cfg : BotConfig)
    (hin : msg.fromMe = false) (hchat : o.getChat = some chat) (hseen : o.sendSeen = true)
    (hcfg : s.botConfig = some cfg) :
    ∃ pre, scheduledTimers pre = [] ∧
      (onMessage lc s msg o).2 = pre ++ autoReplyBlock lc cfg chat.idSerialized msg.body
        (updatedChatData s.activeChats chat msg).unread := by
  refine ⟨[.provider .getChat] ++ materializeEffects msg o.media ++
      [.broadcast (.chatUpdated
          ⟨chat.idSerialized, some (updatedChatData s.activeChats chat msg).lastMessage,
            some (updatedChatData s.activeChats chat msg).unread,
            some (updatedChatData s.activeChats chat msg).timestamp⟩),
       .broadcast (.specificMessage
          { chatId := chat.idSerialized
            sender := if msg.fromMe then "Você" else jsOr chat.name chat.idUser
            message := (materialize msg o.media).1
            timestampMs := msg.timestamp * 1000
            isMedia := (materialize msg o.media).2.1
            fromMe := msg.fromMe
            filePath := (materialize msg o.media).2.2 })] ++
      [.provider (.sendSeen chat.idSerialized)], ?_, ?_⟩
  · have hm := materializeEffects_no_timer msg o.media
    unfold scheduledTimers at hm ⊢
    simp [List.filterMap_append, hm]
  · unfold onMessage
    simp [hchat, hin, hseen, hcfg]

theorem scheduledTimers_nil_keyword (fx : List Effect) (h : scheduledTimers fx = []) :
    keywordIntents fx = [] := by
  induction fx with
  | nil => rfl
  | cons e rest ih =>
    cases e with
    | setTimeout t d => simp [scheduledTimers] at h
    | _ =>
      have hrest : scheduledTimers rest = [] := by simpa [scheduledTimers] using h
      simpa [keywordIntents] using ih hrest

theorem scheduledTimers_nil_greeting (fx : List Effect) (h : scheduledTimers fx = []) :
    greetingIntents fx = [] := by
  induction fx with
  | nil => rfl
  | cons e rest ih =>
    cases e with
    | setTimeout t d => simp [scheduledTimers] at h
    | _ =>
      have hrest : scheduledTimers rest = [] := by simpa [scheduledTimers] using h
      simpa [greetingIntents] using ih hrest

/-- C3. With bot status `active`: when some rule's trigger is a
case-insensitive substring of the body, the keyword block schedules exactly one
keyword reply, whose text is the content of the first such rule in list
order; when no trigger is, it schedules none. The message handler, run to its
end on an inbound message with that body, schedules exactly these keyword
replies. -/
theorem keyword_reply_first_match (lc : String → String) (cfg : BotConfig) (body : String)
    (hactive : cfg.status = "active") :
    (∀ chatId, (∃ r ∈ cfg.autoReplies, CaseInsensitiveSubstring lc r.trigger body) →
      ∃ r, FirstMatch lc cfg.autoReplies body r ∧
        keywordReplyBlock lc cfg chatId body = [.setTimeout (.keywordReply chatId r.content) 1500]) ∧
    (∀ chatId, (∀ r ∈ cfg.autoReplies, ¬ CaseInsensitiveSubstring lc r.trigger body) →
      keywordReplyBlock lc cfg chatId body = []) ∧
    (∀ (s : ServerState) (msg : ProviderMessage) (o : MessageOutcome) (chat : ProviderChat),
      s.botConfig = some cfg → msg.body = body → msg.fromMe = false →
      o.getChat = some chat → o.sendSeen = true →
      keywordIntents (onMessage lc s msg o).2 =
        keywordIntents (keywordReplyBlock lc cfg chat.idSerialized body)) := by
  refine ⟨?_, ?_, ?_⟩
  · intro chatId h
    obtain ⟨r, hfirst, hfind⟩ := findAutoReply_some lc cfg.autoReplies body h
    exact ⟨r, hfirst, by simp [keywordReplyBlock, hactive, hfind]⟩
  · intro chatId h
    simp [keywordReplyBlock, hactive, findAutoReply_none lc cfg.autoReplies body h]
  · intro s msg o chat hcfg hbody hin hchat hseen
    obtain ⟨pre, hpre, heq⟩ := onMessage_effects_completed lc s msg o chat cfg hin hchat hseen hcfg
    have hk := scheduledTimers_nil_keyword pre hpre
    rw [heq, autoReplyBlock, hbody]
    unfold keywordIntents at hk ⊢
    rw [List.filterMap_append, List.filterMap_append, hk]
    have hg := keywordIntents_greetingBlock cfg chat.idSerialized
      (updatedChatData s.activeChats chat msg).unread
    unfold keywordIntents at hg
    rw [hg]
    simp

theorem keyword_reply_first_match_witness :
    keywordIntents (onMessage lowerLatin readyState
        (textMessage "Qual o horário de atendimento?") (allResolve "a")).2 =
      [("a", "Atendemos 24 horas por dia, 7 dias por semana, incluindo feriados.")] ∧
    keywordIntents (onMessage lowerLatin readyState (textMessage "oi") (allResolve "a")).2 = [] :=
  ⟨((keyword_reply_first_match lowerLatin defaultBotConfig "Qual o horário de atendimento?"
      rfl).2.2 readyState (textMessage "Qual o horário de atendimento?") (allResolve "a")
      (chatOf "a") rfl rfl rfl rfl rfl).trans (by decide),
   ((keyword_reply_first_match lowerLatin defaultBotConfig "oi" rfl).2.2 readyState
      (textMessage "oi") (allResolve "a") (chatOf "a") rfl rfl rfl rfl rfl).trans (by decide)⟩

/-! ## Reply intents of the message handler -/

theorem scheduledTimers_append (a b : List Effect) :
    scheduledTimers (a ++ b) = scheduledTimers a ++ scheduledTimers b := by
  simp [scheduledTimers, List.filterMap_append]

/-- The timers scheduled by the message handler: those of the auto-reply block
when the message is inbound, `getChat` and `sendSeen` resolved and a config is
set; none otherwise. -/
theorem scheduledTimers_onMessage (lc : String → String) (s : ServerState)
    (msg : ProviderMessage) (o : MessageOutcome) :
    scheduledTimers (onMessage lc s msg o).2 =
      match o.getChat, s.botConfig with
      | some chat, some cfg =>
        if msg.fromMe = false ∧ o.sendSeen = true then
          scheduledTimers (autoReplyBlock lc cfg chat.idSerialized msg.body
            (updatedChatData s.activeChats chat msg).unread)
        else []
      | _, _ => []
    := by
  have hm := materializeEffects_no_timer msg o.media
  cases hchat : o.getChat with
  | none => simp [onMessage, hchat, scheduledTimers]
  | some chat =>
    cases hcfg : s.botConfig with
    | none =>
      cases hf : msg.fromMe <;> cases hs : o.sendSeen <;>
        simp [onMessage, hchat, hcfg, hf, hs, scheduledTimers_append, hm] <;>
        simpa [scheduledTimers] using hm
    | some cfg =>
      cases hf : msg.fromMe <;> cases hs : o.sendSeen <;>
        simp [onMessage, hchat, hcfg, hf, hs, scheduledTimers_append, hm] <;>
        simpa [scheduledTimers] using hm

theorem autoReplyBlock_inactive (lc : String → String) (cfg : BotConfig) (chatId body : String)
    (unread : Nat) (h : cfg.status ≠ "active") :
    autoReplyBlock lc cfg chatId body unread = [] := by
  simp [autoReplyBlock, keywordReplyBlock, greetingBlock, h]

/-- C4. When the bot status is anything other than `active`, the message
handler schedules no reply intent at all, neither a keyword reply nor a
greeting, whatever the message, the rules, the registry and the outcome of the
provider calls. -/
theorem no_intents_unless_active (lc : String → String) (s : ServerState)
    (msg : ProviderMessage) (o : MessageOutcome)
    (hstatus : ∀ cfg, s.botConfig = some cfg → cfg.status ≠ "active") :
    scheduledTimers (onMessage lc s msg o).2 = [] ∧
    keywordIntents (onMessage lc s msg o).2 = [] ∧
    greetingIntents (onMessage lc s msg o).2 = [] := by
  have h : scheduledTimers (onMessage lc s msg o).2 = [] := by
    rw [scheduledTimers_onMessage]
    cases hchat : o.getChat with
    | none => rfl
    | some chat =>
      cases hcfg : s.botConfig with
      | none => rfl
      | some cfg =>
        simp only
        rw [autoReplyBlock_inactive lc cfg _ _ _ (hstatus cfg hcfg)]
        simp [scheduledTimers]
  exact ⟨h, scheduledTimers_nil_keyword _ h, scheduledTimers_nil_greeting _ h⟩

theorem no_intents_unless_active_witness :
    jsIncludes (lowerLatin "Qual o PREÇO?") (lowerLatin "preço") = true ∧
    storedUnread (onMessage lowerLatin pausedState (textMessage "Qual o PREÇO?")
      (allResolve "a")).1 "a" = some 1 ∧
    scheduledTimers (onMessage lowerLatin pausedState (textMessage "Qual o PREÇO?")
      (allResolve "a")).2 = [] :=
  ⟨by decide, by decide,
   (no_intents_unless_active lowerLatin pausedState (textMessage "Qual o PREÇO?")
      (allResolve "a") (by decide)).1⟩

/-! ## Greeting -/

theorem greetingIntents_append (a b : List Effect) :
    greetingIntents (a ++ b) = greetingIntents a ++ greetingIntents b := by
  simp [greetingIntents, List.filterMap_append]

theorem greetingIntents_keywordReplyBlock (lc : String → String) (cfg : BotConfig)
    (chatId body : String) : greetingIntents (keywordReplyBlock lc cfg chatId body) = [] := by
  unfold keywordReplyBlock
  split
  · split <;> rfl
  · rfl

theorem updatedChatData_unread_inbound (s : ServerState) (chat : ProviderChat)
    (msg : ProviderMessage) (hin : msg.fromMe = false) :
    (updatedChatData s.activeChats chat msg).unread = unreadOf s chat.idSerialized + 1 := by
  unfold updatedChatData unreadOf storedUnread
  cases jsMapGet s.activeChats chat.idSerialized <;> simp [hin]

/-- One inbound message whose handler runs to its end, with the bot active:
it schedules a greeting exactly when it takes the unread count from 0 to 1, it
raises the count by 1 and leaves the config as it was. -/
theorem onMessage_greeting_step (lc : String → String) (s : ServerState)
    (msg : ProviderMessage) (o : MessageOutcome) (chat : ProviderChat) (cfg : BotConfig)
    (hcfg : s.botConfig = some cfg) (hactive : cfg.status = "active")
    (hin : msg.fromMe = false) (hchat : o.getChat = some chat) (hseen : o.sendSeen = true) :
    greetingIntents (onMessage lc s msg o).2 =
      (if unreadOf s chat.idSerialized = 0 then [chat.idSerialized] else []) ∧
    unreadOf (onMessage lc s msg o).1 chat.idSerialized = unreadOf s chat.idSerialized + 1 ∧
    (onMessage lc s msg o).1.botConfig = some cfg := by
  refine ⟨?_, ?_, ?_⟩
  · obtain ⟨pre, hpre, heq⟩ :=
      onMessage_effects_completed lc s msg o chat cfg hin hchat hseen hcfg
    rw [heq, autoReplyBlock, greetingIntents_append, greetingIntents_append,
      scheduledTimers_nil_greeting pre hpre, greetingIntents_keywordReplyBlock,
      updatedChatData_unread_inbound s chat msg hin]
    by_cases h0 : unreadOf s chat.idSerialized = 0
    · simp [greetingBlock, hactive, h0, greetingIntents]
    · simp [greetingBlock, h0, greetingIntents]
  · have h := unreadOf_applyInput lc s chat.idSerialized (.message msg o)
      (by simp [validInput, hchat])
    simpa [applyInput, isInbound, hchat, hin] using h
  · rw [(onMessage_flags lc s msg o).2.2, hcfg]

/-- Run without interruption, the two parts of the message handler are the
handler: the state is the one left by the first part, and the effects are
those of the first part followed by those of the second, which finds in
`chatData.unread` the count it has just stored. -/
theorem onMessage_eq_parts (lc : String → String) (s : ServerState) (msg : ProviderMessage)
    (o : MessageOutcome) :
    onMessage lc s msg o =
      ((onMessageStart s msg o).1,
       (onMessageStart s msg o).2 ++
        onMessageResume lc (onMessageStart s msg o).1 msg o
          (match o.getChat with
            | some chat => unreadOf (onMessageStart s msg o).1 chat.idSerialized
            | none => 0)) := by
  cases hchat : o.getChat with
  | none => simp [onMessage, onMessageStart, onMessageResume, hchat]
  | some chat =>
    have hu : ∀ m : List (String × ChatData), ∀ cd : ChatData,
        ((jsMapGet (jsMapSet m chat.idSerialized cd) chat.idSerialized).map
          fun chatData => chatData.unread).getD 0 = cd.unread := by
      intro m cd
      rw [jsMapGet_set_same]
      rfl
    cases hf : msg.fromMe <;> cases hs : o.sendSeen <;> cases hcfg : s.botConfig <;>
      simp [onMessage, onMessageStart, onMessageResume, hchat, hf, hs, hcfg, unreadOf,
        storedUnread, hu]

theorem scheduledTimers_onMessageStart (s : ServerState) (msg : ProviderMessage)
    (o : MessageOutcome) : scheduledTimers (onMessageStart s msg o).2 = [] := by
  have hm := materializeEffects_no_timer msg o.media
  cases hchat : o.getChat with
  | none => simp [onMessageStart, hchat, scheduledTimers]
  | some chat =>
    cases hf : msg.fromMe <;>
      simp [onMessageStart, hchat, hf, scheduledTimers_append, hm] <;>
      simpa [scheduledTimers] using hm

/-- The first part of the handler of an inbound message raises the stored
count of its conversation by 1 and leaves the config as it was. -/
theorem onMessageStart_inbound (s : ServerState) (msg : ProviderMessage) (o : MessageOutcome)
    (chat : ProviderChat) (hin : msg.fromMe = false) (hchat : o.getChat = some chat) :
    unreadOf (onMessageStart s msg o).1 chat.idSerialized = unreadOf s chat.idSerialized + 1 ∧
    (onMessageStart s msg o).1.botConfig = s.botConfig := by
  have hparts := onMessage_eq_parts (fun x => x) s msg o
  have hstate : (onMessageStart s msg o).1 = (onMessage (fun x => x) s msg o).1 := by
    rw [hparts]
  constructor
  · rw [hstate]
    have h := unreadOf_applyInput (fun x => x) s chat.idSerialized (.message msg o)
      (by simp [validInput, hchat])
    simpa [applyInput, isInbound, hchat, hin] using h
  · rw [hstate]
    exact (onMessage_flags (fun x => x) s msg o).2.2

/-- The second part of the handler of an inbound message, with the bot active:
it schedules a greeting exactly when the read receipt resolved and
`chatData.unread` is 1 at that moment. -/
theorem greetingIntents_onMessageResume (lc : String → String) (s : ServerState)
    (msg : ProviderMessage) (o : MessageOutcome) (chat : ProviderChat) (cfg : BotConfig)
    (unread : Nat) (hcfg : s.botConfig = some cfg) (hactive : cfg.status = "active")
    (hin : msg.fromMe = false) (hchat : o.getChat = some chat) :
    greetingIntents (onMessageResume lc s msg o unread) =
      if o.sendSeen = true ∧ unread = 1 then [chat.idSerialized] else [] := by
  cases hs : o.sendSeen with
  | false => simp [onMessageResume, hchat, hin, hs, greetingIntents]
  | true =>
    have hk := greetingIntents_keywordReplyBlock lc cfg chat.idSerialized msg.body
    have hres : onMessageResume lc s msg o unread =
        keywordReplyBlock lc cfg chat.idSerialized msg.body ++
          greetingBlock cfg chat.idSerialized unread := by
      simp [onMessageResume, hchat, hin, hs, hcfg, autoReplyBlock]
    rw [hres, greetingIntents_append, hk]
    by_cases h1 : unread = 1
    · simp [greetingBlock, hactive, h1, greetingIntents]
    · simp [greetingBlock, h1, greetingIntents]

/-- Inbound messages of a conversation whose unread count is already positive,
each handled to its end before the next, schedule no greeting. -/
theorem sequential_no_greeting (lc : String → String) (c : String) (cfg : BotConfig)
    (hactive : cfg.status = "active") (run : List (ProviderMessage × MessageOutcome))
    (s : ServerState) (hcfg : s.botConfig = some cfg) (hpos : unreadOf s c ≠ 0)
    (hrun : ∀ x ∈ run, x.1.fromMe = false ∧
      ∃ chat, x.2.getChat = some chat ∧ chat.idSerialized = c) :
    (runLoop lc s (sequentialSchedule run)).2.map greetingIntents =
      List.replicate (2 * run.length) [] ∧
    (runLoop lc s (sequentialSchedule run)).1.botConfig = some cfg := by
  induction run generalizing s with
  | nil => exact ⟨rfl, hcfg⟩
  | cons x rest ih =>
    obtain ⟨msg, o⟩ := x
    obtain ⟨hin, chat, hchat, hid⟩ := hrun (msg, o) (List.mem_cons_self _ _)
    subst hid
    replace hin : msg.fromMe = false := hin
    replace hchat : o.getChat = some chat := hchat
    obtain ⟨hu, hc⟩ := onMessageStart_inbound s msg o chat hin hchat
    have hcfg1 : (onMessageStart s msg o).1.botConfig = some cfg := hc.trans hcfg
    have hrest := ih (onMessageStart s msg o).1 hcfg1 (by omega)
      (fun y hy => hrun y (List.mem_cons_of_mem _ hy))
    have hstart := scheduledTimers_nil_greeting _ (scheduledTimers_onMessageStart s msg o)
    have hresume := greetingIntents_onMessageResume lc (onMessageStart s msg o).1 msg o chat cfg
      (unreadOf (onMessageStart s msg o).1 chat.idSerialized) hcfg1 hactive hin hchat
    have hne : ¬ (o.sendSeen = true ∧
        unreadOf (onMessageStart s msg o).1 chat.idSerialized = 1) := by
      intro h
      omega
    rw [if_neg hne] at hresume
    have hlen : 2 * ((msg, o) :: rest).length = 2 * rest.length + 1 + 1 := by
      simp [List.length_cons]
      omega
    rw [hlen, List.replicate_succ, List.replicate_succ]
    simp only [sequentialSchedule, runLoop, List.map_cons, hchat]
    rw [hstart, hresume, hrest.1]
    exact ⟨rfl, hrest.2⟩

/-- C5 (as stated, refuted). With the default active config and an empty
registry: when two inbound messages of the new conversation `a` arrive back to
back, so that the second handler starts while the first awaits `sendSeen`, no
turn schedules a greeting, because both handlers find `chatData.unread` at 2
when they resume; and a single inbound message whose read receipt rejects
schedules no greeting either. -/
theorem greeting_not_always_once :
    (runLoop lowerLatin readyState overlappingSchedule).2.map greetingIntents =
      [[], [], [], []] ∧
    storedUnread (runLoop lowerLatin readyState overlappingSchedule).1 "a" = some 2 ∧
    (runLoop lowerLatin readyState
      (sequentialSchedule [(textMessage "oi", seenRejects "a")])).2.map greetingIntents =
      [[], []] := by
  decide

/-- C5 (amended). For a conversation whose stored unread count is 0 or which
is absent, and a run of inbound messages of it with the bot active, the handler
of each message running to its end before the next message is ingested: the
first message schedules exactly one greeting when its read receipt resolves
and none when it rejects, whatever its body (matching a keyword rule or not);
the other messages schedule none; and the greeting timer, fired with the
config still in place, sends the configured greeting text to the
conversation. -/
theorem greeting_on_first_message (lc : String → String) (s : ServerState) (c : String)
    (cfg : BotConfig) (msg : ProviderMessage) (o : MessageOutcome)
    (rest : List (ProviderMessage × MessageOutcome))
    (hcfg : s.botConfig = some cfg) (hactive : cfg.status = "active")
    (hunread : unreadOf s c = 0)
    (hrun : ∀ x ∈ (msg, o) :: rest, x.1.fromMe = false ∧
      ∃ chat, x.2.getChat = some chat ∧ chat.idSerialized = c) :
    (runLoop lc s (sequentialSchedule ((msg, o) :: rest))).2.map greetingIntents =
      [] :: (if o.sendSeen = true then [c] else []) :: List.replicate (2 * rest.length) [] ∧
    ((runLoop lc s (sequentialSchedule ((msg, o) :: rest))).2.map greetingIntents).flatten =
      (if o.sendSeen = true then [c] else []) ∧
    fireTimer (runLoop lc s (sequentialSchedule ((msg, o) :: rest))).1 (.greeting c) true =
      [.provider (.sendMessage c cfg.greeting), .broadcast (.autoReply c cfg.greeting)] := by
  obtain ⟨hin, chat, hchat, hid⟩ := hrun (msg, o) (List.mem_cons_self _ _)
  subst hid
  replace hin : msg.fromMe = false := hin
  replace hchat : o.getChat = some chat := hchat
  obtain ⟨hu, hc⟩ := onMessageStart_inbound s msg o chat hin hchat
  have hcfg1 : (onMessageStart s msg o).1.botConfig = some cfg := hc.trans hcfg
  obtain ⟨hrest, hcfgEnd⟩ := sequential_no_greeting lc chat.idSerialized cfg hactive rest
    (onMessageStart s msg o).1 hcfg1 (by omega) (fun y hy => hrun y (List.mem_cons_of_mem _ hy))
  have hstart := scheduledTimers_nil_greeting _ (scheduledTimers_onMessageStart s msg o)
  have hresume := greetingIntents_onMessageResume lc (onMessageStart s msg o).1 msg o chat cfg
    (unreadOf (onMessageStart s msg o).1 chat.idSerialized) hcfg1 hactive hin hchat
  have hone : unreadOf (onMessageStart s msg o).1 chat.idSerialized = 1 := by omega
  simp only [hone, and_true] at hresume
  have hlist : (runLoop lc s (sequentialSchedule ((msg, o) :: rest))).2.map greetingIntents =
      [] :: (if o.sendSeen = true then [chat.idSerialized] else []) ::
        List.replicate (2 * rest.length) [] := by
    simp only [sequentialSchedule, runLoop, List.map_cons, hchat]
    rw [hstart, hone, hresume, hrest]
  refine ⟨hlist, ?_, ?_⟩
  · rw [hlist]
    simp
  · have hstate : (runLoop lc s (sequentialSchedule ((msg, o) :: rest))).1.botConfig =
        some cfg := by
      simpa [sequentialSchedule, runLoop] using hcfgEnd
    simp [fireTimer, hstate]

theorem greeting_on_first_message_witness :
    keywordIntents (onMessage lowerLatin readyState (textMessage "qual o preço?")
      (allResolve "a")).2 ≠ [] ∧
    (runLoop lowerLatin readyState (sequentialSchedule sampleStreak)).2.map greetingIntents =
      [[], ["a"], [], [], [], []] ∧
    (runLoop lowerLatin readyState
      (sequentialSchedule [(textMessage "oi", seenRejects "a"),
        (textMessage "alô", allResolve "a")])).2.map greetingIntents = [[], [], [], []] :=
  ⟨by decide,
   (greeting_on_first_message lowerLatin readyState "a" defaultBotConfig
      (textMessage "qual o preço?") (allResolve "a")
      [(textMessage "oi", allResolve "a"), (textMessage "alô", allResolve "a")] rfl rfl
      (by decide) (by decide)).1,
   (greeting_on_first_message lowerLatin readyState "a" defaultBotConfig
      (textMessage "oi") (seenRejects "a") [(textMessage "alô", allResolve "a")] rfl rfl
      (by decide) (by decide)).1⟩

/-! ## Dashboard sends -/

theorem storedUnread_set_same_unread (s : ServerState) (c k : String) (old new : ChatData)
    (hget : jsMapGet s.activeChats k = some old) (hunread : new.unread = old.unread) :
    storedUnread { s with activeChats := jsMapSet s.activeChats k new } c = storedUnread s c := by
  unfold storedUnread
  by_cases hk : k = c
  · subst hk
    simp [jsMapGet_set_same, hget, hunread]
  · simp [jsMapGet_set_other _ _ _ _ hk]

/-- The handler of `send-message` never changes a stored unread count. -/
theorem onSendMessage_storedUnread (s : ServerState) (chatId message : Option String)
    (o : SendOutcome) (c : String) :
    storedUnread (onSendMessage s chatId message o).1 c = storedUnread s c := by
  unfold onSendMessage
  split
  · split
    · rfl
    · split
      · rfl
      · split
        · rename_i chatData hget
          exact storedUnread_set_same_unread s c _ chatData _ hget rfl
        · rfl
  · rfl

/-- The handler of `send-file` never changes a stored unread count. -/
theorem onSendFile_storedUnread (s : ServerState) (chatId : Option String)
    (file : Option UploadFile) (o : SendFileOutcome) (c : String) :
    storedUnread (onSendFile s chatId file o).1 c = storedUnread s c := by
  unfold onSendFile
  split
  · split
    · rfl
    · split
      · rfl
      · split
        · rfl
        · split
          · rename_i chatData hget
            exact storedUnread_set_same_unread s c _ chatData _ hget rfl
          · rfl
  · rfl

/-- C6 (the code departs from the claim). With conversation `a` stored at 3
unread messages, a successful `send-message` to `a` broadcasts a `chat-updated`
delta that carries `unread: 0`, yet the registry still stores 3 for `a`, and so
does it after a successful `send-file`; in general neither handler ever changes
a stored unread count. -/
theorem send_keeps_stored_unread :
    storedUnread (onSendMessage unreadState (some "a") (some "ok") sendOk).1 "a" = some 3 ∧
    broadcastEvents (onSendMessage unreadState (some "a") (some "ok") sendOk).2 =
      [.chatUpdated ⟨"a", some "ok", some 0, some 5⟩] ∧
    storedUnread (onSendFile unreadState (some "a") (some sampleFile) sendFileOk).1 "a" =
      some 3 ∧
    (∀ (s : ServerState) (chatId message : Option String) (o : SendOutcome) (c : String),
      storedUnread (onSendMessage s chatId message o).1 c = storedUnread s c) ∧
    (∀ (s : ServerState) (chatId : Option String) (file : Option UploadFile)
      (o : SendFileOutcome) (c : String),
      storedUnread (onSendFile s chatId file o).1 c = storedUnread s c) :=
  ⟨by decide, by decide, by decide, onSendMessage_storedUnread, onSendFile_storedUnread⟩

/-! ## Failure of the read receipt -/

/-- C7 (as stated, refuted). On the inbound message "qual o preço?" with the
default config and an empty registry, the handler schedules a keyword reply
and a greeting when `sendSeen` resolves, and nothing when it rejects. -/
theorem sendSeen_failure_changes_intents :
    scheduledTimers (onMessage lowerLatin readyState (textMessage "qual o preço?")
        (allResolve "a")).2 =
      [(.keywordReply "a" "O valor do serviço de guincho varia conforme a distância. Para um orçamento preciso, por favor informe seu endereço.", 1500),
       (.greeting "a", 1000)] ∧
    scheduledTimers (onMessage lowerLatin readyState (textMessage "qual o preço?")
        (seenRejects "a")).2 = [] ∧
    scheduledTimers (onMessage lowerLatin readyState (textMessage "qual o preço?")
        (seenRejects "a")).2 ≠
      scheduledTimers (onMessage lowerLatin readyState (textMessage "qual o preço?")
        (allResolve "a")).2 := by
  decide

/-- C7 (amended). When the read receipt `sendSeen` rejects, the message handler
schedules no reply intent; the failure is not fatal to what came before: the
state it leaves and the events it emits are those of the run in which
`sendSeen` resolves, whose effects only go on with the auto-reply timers. -/
theorem sendSeen_failure_blocks_auto_reply (lc : String → String) (s : ServerState)
    (msg : ProviderMessage) (o : MessageOutcome) (hfail : o.sendSeen = false) :
    scheduledTimers (onMessage lc s msg o).2 = [] ∧
    (onMessage lc s msg o).1 = (onMessage lc s msg { o with sendSeen := true }).1 ∧
    emittedEvents (onMessage lc s msg o).2 =
      emittedEvents (onMessage lc s msg { o with sendSeen := true }).2 ∧
    ∃ timers, (∀ e ∈ timers, ∃ t d, e = Effect.setTimeout t d) ∧
      (onMessage lc s msg { o with sendSeen := true }).2 = (onMessage lc s msg o).2 ++ timers := by
  have hexists : ∃ timers, (∀ e ∈ timers, ∃ t d, e = Effect.setTimeout t d) ∧
      (onMessage lc s msg { o with sendSeen := true }).2 = (onMessage lc s msg o).2 ++ timers := by
    cases hchat : o.getChat with
    | none => exact ⟨[], by simp, by simp [onMessage, hchat]⟩
    | some chat =>
      cases hf : msg.fromMe with
      | true => exact ⟨[], by simp, by simp [onMessage, hchat, hf]⟩
      | false =>
        cases hcfg : s.botConfig with
        | none => exact ⟨[], by simp, by simp [onMessage, hchat, hf, hcfg, hfail]⟩
        | some cfg =>
          refine ⟨autoReplyBlock lc cfg chat.idSerialized msg.body
            (updatedChatData s.activeChats chat msg).unread, ?_, by
              simp [onMessage, hchat, hf, hcfg, hfail]⟩
          intro e he
          simp only [autoReplyBlock, keywordReplyBlock, greetingBlock, List.mem_append] at he
          rcases he with he | he
          · split at he
            · split at he
              · exact ⟨_, _, List.mem_singleton.mp he⟩
              · simp at he
            · simp at he
          · split at he
            · exact ⟨_, _, List.mem_singleton.mp he⟩
            · simp at he
  refine ⟨?_, ?_, ?_, hexists⟩
  · rw [scheduledTimers_onMessage]
    cases o.getChat <;> cases s.botConfig <;> simp [hfail]
  · cases hchat : o.getChat with
    | none => simp [onMessage, hchat]
    | some chat =>
      cases hf : msg.fromMe <;> cases hcfg : s.botConfig <;>
        simp [onMessage, hchat, hf, hcfg, hfail]
  · obtain ⟨timers, hall, heq⟩ := hexists
    rw [heq]
    have happ : ∀ (a b : List Effect), (∀ e ∈ b, ∃ t d, e = Effect.setTimeout t d) →
        emittedEvents (a ++ b) = emittedEvents a := by
      intro a b hb
      induction a with
      | nil =>
        induction b with
        | nil => rfl
        | cons e rest ih =>
          obtain ⟨t, d, rfl⟩ := hb _ (List.mem_cons_self _ _)
          simpa [emittedEvents] using ih (fun x hx => hb x (List.mem_cons_of_mem _ hx))
      | cons e rest ih => cases e <;> simp [emittedEvents, ih]
    exact (happ _ _ hall).symm

theorem sendSeen_failure_blocks_auto_reply_witness :
    scheduledTimers (onMessage lowerLatin readyState (textMessage "qual o preço?")
      (seenRejects "a")).2 = [] ∧
    storedUnread (onMessage lowerLatin readyState (textMessage "qual o preço?")
      (seenRejects "a")).1 "a" = some 1 :=
  ⟨(sendSeen_failure_blocks_auto_reply lowerLatin readyState (textMessage "qual o preço?")
      (seenRejects "a") rfl).1, by decide⟩

/-! ## Commands with a missing field, and config updates -/

/-- C8 (the code departs from the claim). `mark-read`, `send-message`,
`send-file` and `load-chat-history` return at their guard when the conversation
id, the message text or the file is missing or empty: state unchanged, no
effect. `update-bot-config` has no guard: with the config payload missing
(`null`) it replaces the in-memory config by `null`, writes it to the config
file and broadcasts `bot-config-updated`. -/
theorem update_config_missing_payload_not_ignored :
    (onUpdateBotConfig readyState none true).1.botConfig = none ∧
    (onUpdateBotConfig readyState none true).1.configFile = some (.json none) ∧
    (onUpdateBotConfig readyState none true).2 =
      [.writeConfigFile none, .broadcast (.botConfigUpdated none)] ∧
    (onUpdateBotConfig readyState none true).1 ≠ readyState ∧
    (∀ (s : ServerState) (o : MarkReadOutcome),
      onMarkRead s none o = (s, []) ∧ onMarkRead s (some "") o = (s, [])) ∧
    (∀ (s : ServerState) (chatId message : Option String) (o : SendOutcome),
      onSendMessage s none message o = (s, []) ∧ onSendMessage s (some "") message o = (s, []) ∧
      onSendMessage s chatId none o = (s, []) ∧ onSendMessage s chatId (some "") o = (s, [])) ∧
    (∀ (s : ServerState) (chatId : Option String) (file : Option UploadFile)
      (o : SendFileOutcome),
      onSendFile s none file o = (s, []) ∧ onSendFile s (some "") file o = (s, []) ∧
      onSendFile s chatId none o = (s, [])) ∧
    (∀ (s : ServerState) (limit : Option Nat) (o : HistoryOutcome),
      onLoadChatHistory s none limit o = (s, []) ∧
      onLoadChatHistory s (some "") limit o = (s, [])) := by
  refine ⟨by decide, by decide, by decide, by decide, ?_, ?_, ?_, ?_⟩
  · intro s o
    exact ⟨rfl, by simp [onMarkRead]⟩
  · intro s chatId message o
    refine ⟨by simp [onSendMessage], ?_, ?_, ?_⟩
    · cases message <;> simp [onSendMessage]
    · cases chatId <;> simp [onSendMessage]
    · cases chatId <;> simp [onSendMessage]
  · intro s chatId file o
    refine ⟨by simp [onSendFile], ?_, ?_⟩
    · cases file <;> simp [onSendFile]
    · cases chatId <;> simp [onSendFile]
  · intro s limit o
    exact ⟨rfl, by simp [onLoadChatHistory]⟩

/-- C9. For every config value `c`, `update-bot-config` replaces the in-memory
config by `c`, then writes `c` to the config file, and only then broadcasts
`bot-config-updated` with `c`: when the write returns, the effects are the write
followed by the broadcast and a reload of the file gives `c` again; when the
write throws, memory holds `c`, the file is as before and nothing is emitted. -/
theorem config_persisted_before_broadcast (s : ServerState) (c : Option BotConfig) :
    (onUpdateBotConfig s c true).1.botConfig = c ∧
    (onUpdateBotConfig s c true).1.configFile = some (.json c) ∧
    (onUpdateBotConfig s c true).2 = [.writeConfigFile c, .broadcast (.botConfigUpdated c)] ∧
    (loadBotConfig (onUpdateBotConfig s c true).1).botConfig = c ∧
    (onUpdateBotConfig s c false).1.botConfig = c ∧
    (onUpdateBotConfig s c false).1.configFile = s.configFile ∧
    (onUpdateBotConfig s c false).2 = [] ∧
    emittedEvents (onUpdateBotConfig s c false).2 = [] := by
  simp [onUpdateBotConfig, loadBotConfig, emittedEvents]

/-! ## History pull -/

theorem emittedEvents_append (a b : List Effect) :
    emittedEvents (a ++ b) = emittedEvents a ++ emittedEvents b := by
  induction a with
  | nil => rfl
  | cons e rest ih => cases e <;> simp [emittedEvents, ih]

theorem broadcastEvents_append (a b : List Effect) :
    broadcastEvents (a ++ b) = broadcastEvents a ++ broadcastEvents b := by
  induction a with
  | nil => rfl
  | cons e rest ih => cases e <;> simp [broadcastEvents, ih]

/-- Each fetched message is emitted exactly once: at once when it has no
media, after its download otherwise. -/
theorem history_events_perm (c : String) (chat : ProviderChat)
    (items : List (ProviderMessage × MediaOutcome)) :
    List.Perm
      (emittedEvents (items.map (historyStart c chat)).flatten ++
        emittedEvents (items.map (historyResume c chat)).flatten)
      (items.map (historicEvent c chat)) := by
  induction items with
  | nil => simp [emittedEvents]
  | cons x rest ih =>
    simp only [List.map_cons, List.flatten_cons, emittedEvents_append]
    cases hm : x.1.hasMedia with
    | false =>
      have h1 : emittedEvents (historyStart c chat x) = [historicEvent c chat x] := by
        simp [historyStart, hm, emittedEvents, historicEvent]
      have h2 : emittedEvents (historyResume c chat x) = [] := by
        simp [historyResume, hm, emittedEvents]
      rw [h1, h2]
      simpa using ih
    | true =>
      have h1 : emittedEvents (historyStart c chat x) = [] := by
        simp [historyStart, hm, emittedEvents]
      have h2 : emittedEvents (historyResume c chat x) = [historicEvent c chat x] := by
        cases hx : x.2 <;> simp [historyResume, hm, hx, emittedEvents, historicEvent]
      rw [h1, h2]
      simp only [List.nil_append, List.singleton_append]
      exact List.perm_middle.trans (List.Perm.cons _ ih)

theorem history_no_broadcast (c : String) (chat : ProviderChat)
    (items : List (ProviderMessage × MediaOutcome)) :
    broadcastEvents (items.map (historyStart c chat)).flatten = [] ∧
    broadcastEvents (items.map (historyResume c chat)).flatten = [] := by
  induction items with
  | nil => exact ⟨rfl, rfl⟩
  | cons x rest ih =>
    simp only [List.map_cons, List.flatten_cons, broadcastEvents_append, ih.1, ih.2]
    constructor
    · cases hm : x.1.hasMedia <;> simp [historyStart, hm, broadcastEvents]
    · cases hm : x.1.hasMedia <;> cases hx : x.2 <;>
        simp [historyResume, hm, hx, broadcastEvents]

/-- C10. When the provider returns the chat and a batch of `N` messages,
whatever subset of the media downloads fails, `load-chat-history` emits to the
requesting socket exactly the `N` `historic-message` events of the batch, one
per message, and no `load-error`; it broadcasts nothing and leaves the state
as it was. The event of a message depends on that message alone: with media
that could not be stored it carries the placeholder body and `isMedia = true`,
with stored media the upload reference, and without media the message body. -/
theorem history_emits_every_message (s : ServerState) (c : String) (limit : Option Nat)
    (o : HistoryOutcome) (chat : ProviderChat)
    (messages : List (ProviderMessage × MediaOutcome))
    (hs : clientUsable s = true) (hc : c ≠ "") (hchat : o.getChatById = some chat)
    (hfetch : o.fetchMessages = some messages) :
    List.Perm (emittedEvents (onLoadChatHistory s (some c) limit o).2)
      (messages.map (historicEvent c chat)) ∧
    (emittedEvents (onLoadChatHistory s (some c) limit o).2).length = messages.length ∧
    (emittedEvents (onLoadChatHistory s (some c) limit o).2).filter Event.isLoadError = [] ∧
    broadcastEvents (onLoadChatHistory s (some c) limit o).2 = [] ∧
    (onLoadChatHistory s (some c) limit o).1 = s ∧
    (∀ (msg : ProviderMessage) (media : MediaOutcome), msg.hasMedia = true →
      (∀ fileName, media ≠ .stored fileName) →
      (historicPayload c chat msg media).message = "[Mídia não disponível]" ∧
      (historicPayload c chat msg media).isMedia = true) ∧
    (∀ (msg : ProviderMessage) (fileName : String), msg.hasMedia = true →
      (historicPayload c chat msg (.stored fileName)).message = "/uploads/" ++ fileName ∧
      (historicPayload c chat msg (.stored fileName)).isMedia = true) ∧
    (∀ (msg : ProviderMessage) (media : MediaOutcome), msg.hasMedia = false →
      (historicPayload c chat msg media).message = msg.body ∧
      (historicPayload c chat msg media).isMedia = false) := by
  have heff : (onLoadChatHistory s (some c) limit o).2 =
      [.provider (.getChatById c), .provider (.fetchMessages c (limit.getD 50))] ++
        (messages.reverse.map (historyStart c chat)).flatten ++
        (messages.reverse.map (historyResume c chat)).flatten := by
    simp [onLoadChatHistory, hs, hc, hchat, hfetch]
  have hperm : List.Perm (emittedEvents (onLoadChatHistory s (some c) limit o).2)
      (messages.map (historicEvent c chat)) := by
    rw [heff, emittedEvents_append, emittedEvents_append]
    have h0 : emittedEvents
        [.provider (.getChatById c), .provider (.fetchMessages c (limit.getD 50))] = [] := rfl
    rw [h0, List.nil_append]
    exact (history_events_perm c chat messages.reverse).trans
      ((List.reverse_perm messages).map _)
  refine ⟨hperm, ?_, ?_, ?_, ?_, ?_, ?_, ?_⟩
  · simpa using hperm.length_eq
  · rw [List.filter_eq_nil_iff]
    intro e he
    obtain ⟨item, _, rfl⟩ := List.mem_map.mp (hperm.subset he)
    simp [historicEvent, Event.isLoadError]
  · obtain ⟨h1, h2⟩ := history_no_broadcast c chat messages.reverse
    rw [heff, broadcastEvents_append, broadcastEvents_append, h1, h2]
    rfl
  · simp [onLoadChatHistory, hs, hc, hchat, hfetch]
  · intro msg media hm hns
    cases media with
    | stored fileName => exact absurd rfl (hns fileName)
    | downloadFailed => simp [historicPayload, materialize, hm]
    | storeFailed fileName => simp [historicPayload, materialize, hm]
  · intro msg fileName hm
    simp [historicPayload, materialize, hm]
  · intro msg media hm
    simp [historicPayload, materialize, hm]

theorem history_emits_every_message_witness :
    (emittedEvents (onLoadChatHistory readyState (some "a") none sampleHistory).2).length = 3 ∧
    (emittedEvents (onLoadChatHistory readyState (some "a") none sampleHistory).2).map
        (fun e => match e with
          | .historicMessage p => p.message
          | _ => "") =
      ["oi", "/uploads/f.jpg", "[Mídia não disponível]"] :=
  ⟨(history_emits_every_message readyState "a" none sampleHistory (chatOf "a")
      [(textMessage "oi", .downloadFailed), (mediaMessage 2, .downloadFailed),
       (mediaMessage 3, .stored "f.jpg")] rfl (by decide) rfl rfl).2.1, by decide⟩

/-! ## Observer connection -/

/-- C11. In every state in which an authenticated session has its client
object, the connection handler sends to the new socket exactly: `whatsapp-status`
if and only if the session is authenticated, then `chat-list-update` with the
whole registry if and only if the registry is not empty, then `ngrok-url` if
and only if the tunnel URL is known, then `bot-config` with the current config;
nothing else is emitted, to this socket or as a broadcast, no message or
history event among it, and the registry and the bot config are unchanged. -/
theorem connection_replay (s : ServerState)
    (hclient : s.isAuthenticated = true → s.whatsappClient = true) :
    socketEvents (onConnection s).2 = replayForObserver s ∧
    emittedEvents (onConnection s).2 = replayForObserver s ∧
    (onConnection s).2 = (replayForObserver s).map Effect.toSocket ∧
    (emittedEvents (onConnection s).2).filter Event.isMessageEvent = [] ∧
    (onConnection s).1.activeChats = s.activeChats ∧
    (onConnection s).1.botConfig = s.botConfig := by
  have hguard : (s.isAuthenticated && !s.whatsappClient) = false := by
    cases ha : s.isAuthenticated with
    | false => rfl
    | true => simp [hclient ha]
  have hfx : (onConnection s).2 = (replayForObserver s).map Effect.toSocket := by
    unfold onConnection replayForObserver
    simp only [hguard]
    cases ha : s.isAuthenticated <;> cases hm : s.activeChats <;> cases hu : s.ngrokUrl <;>
      cases hw : s.whatsappClient <;> simp [Option.filter] <;> split <;> simp_all
  have hsock : ∀ l : List Event, socketEvents (l.map Effect.toSocket) = l := by
    intro l
    induction l with
    | nil => rfl
    | cons e rest ih => simp [socketEvents, ih]
  have hemit : ∀ l : List Event, emittedEvents (l.map Effect.toSocket) = l := by
    intro l
    induction l with
    | nil => rfl
    | cons e rest ih => simp [emittedEvents, ih]
  refine ⟨by rw [hfx, hsock], by rw [hfx, hemit], hfx, ?_, ?_, ?_⟩
  · rw [hfx, hemit]
    unfold replayForObserver
    cases ha : s.isAuthenticated <;> cases hm : s.activeChats <;> cases hu : s.ngrokUrl <;>
      simp [Option.filter, Event.isMessageEvent] <;> split <;> simp [Event.isMessageEvent]
  · unfold onConnection
    simp only [hguard]
    cases s.whatsappClient <;> simp [initWhatsAppClient]
  · unfold onConnection
    simp only [hguard]
    cases s.whatsappClient <;> simp [initWhatsAppClient]

theorem connection_replay_witness :
    socketEvents (onConnection busyState).2 =
      [.whatsappStatus "ready", .chatListUpdate busyState.activeChats,
       .ngrokUrl "https://t.example", .botConfig (some defaultBotConfig)] ∧
    socketEvents (onConnection initialState).2 = [.botConfig (some defaultBotConfig)] :=
  ⟨(connection_replay busyState (by decide)).1.trans (by decide),
   (connection_replay initialState (by decide)).1.trans (by decide)⟩

/-! ## Order of the registry snapshot -/

theorem keys_jsMapSet (m : List (String × ChatData)) (k : String) (v : ChatData) :
    (jsMapSet m k v).map Prod.fst = addKey (m.map Prod.fst) k := by
  induction m with
  | nil => simp [jsMapSet, addKey]
  | cons p rest ih =>
    obtain ⟨k', v'⟩ := p
    by_cases h : k' = k
    · subst h
      simp [jsMapSet, addKey]
    · have hne : ¬ k = k' := fun e => h e.symm
      simp only [jsMapSet, h, if_false, List.map_cons, ih, addKey, List.mem_cons, hne, false_or]
      split <;> simp

theorem jsMapGet_some_mem (m : List (String × ChatData)) (k : String) (v : ChatData)
    (h : jsMapGet m k = some v) : (k, v) ∈ m := by
  induction m with
  | nil => simp [jsMapGet] at h
  | cons p rest ih =>
    obtain ⟨k', v'⟩ := p
    by_cases hk : k' = k
    · subst hk
      simp only [jsMapGet, if_true, Option.some.injEq] at h
      subst h
      exact List.mem_cons_self _ _
    · simp only [jsMapGet, hk, if_false] at h
      exact List.mem_cons_of_mem _ (ih h)

theorem keys_jsMapSet_present (m : List (String × ChatData)) (k : String) (old new : ChatData)
    (h : jsMapGet m k = some old) : (jsMapSet m k new).map Prod.fst = m.map Prod.fst := by
  have hmem : k ∈ m.map Prod.fst :=
    List.mem_map.mpr ⟨(k, old), jsMapGet_some_mem m k old h, rfl⟩
  rw [keys_jsMapSet, addKey, if_pos hmem]

theorem idsMatch_jsMapSet (m : List (String × ChatData)) (k : String) (v : ChatData)
    (hm : IdsMatch m) (hv : v.id = k) : IdsMatch (jsMapSet m k v) := by
  induction m with
  | nil =>
    intro p hp
    simp only [jsMapSet, List.mem_singleton] at hp
    subst hp
    exact hv
  | cons q rest ih =>
    obtain ⟨k', v'⟩ := q
    have hrest : IdsMatch rest := fun p hp => hm p (List.mem_cons_of_mem _ hp)
    intro p hp
    by_cases h : k' = k
    · simp only [jsMapSet, h, if_true, List.mem_cons] at hp
      rcases hp with rfl | hp
      · exact hv
      · exact hrest p hp
    · simp only [jsMapSet, h, if_false, List.mem_cons] at hp
      rcases hp with rfl | hp
      · exact hm _ (List.mem_cons_self _ _)
      · exact ih hrest p hp

theorem UpdatesInPlace.keys {m m2 : List (String × ChatData)} (h : UpdatesInPlace m m2) :
    m2.map Prod.fst = m.map Prod.fst := by
  rcases h with rfl | ⟨k, old, new, hget, _, rfl⟩
  · rfl
  · exact keys_jsMapSet_present m k old new hget

theorem UpdatesInPlace.idsMatch {m m2 : List (String × ChatData)} (h : UpdatesInPlace m m2)
    (hm : IdsMatch m) : IdsMatch m2 := by
  rcases h with rfl | ⟨k, old, new, hget, hid, rfl⟩
  · exact hm
  · exact idsMatch_jsMapSet m k new hm (hid.trans (hm _ (jsMapGet_some_mem m k old hget)))

theorem onMarkRead_updatesInPlace (s : ServerState) (chatId : Option String)
    (o : MarkReadOutcome) : UpdatesInPlace s.activeChats (onMarkRead s chatId o).1.activeChats := by
  unfold onMarkRead
  split
  · exact Or.inl rfl
  · split
    · exact Or.inl rfl
    · split
      · exact Or.inl rfl
      · split
        · exact Or.inl rfl
        · split
          · rename_i chatData hget
            refine Or.inr ⟨_, chatData, _, hget, ?_, rfl⟩
            rfl
          · exact Or.inl rfl

theorem onSendMessage_updatesInPlace (s : ServerState) (chatId message : Option String)
    (o : SendOutcome) :
    UpdatesInPlace s.activeChats (onSendMessage s chatId message o).1.activeChats := by
  unfold onSendMessage
  split
  · split
    · exact Or.inl rfl
    · split
      · exact Or.inl rfl
      · split
        · rename_i chatData hget
          refine Or.inr ⟨_, chatData, _, hget, ?_, rfl⟩
          rfl
        · exact Or.inl rfl
  · exact Or.inl rfl

theorem onSendFile_updatesInPlace (s : ServerState) (chatId : Option String)
    (file : Option UploadFile) (o : SendFileOutcome) :
    UpdatesInPlace s.activeChats (onSendFile s chatId file o).1.activeChats := by
  unfold onSendFile
  split
  · split
    · exact Or.inl rfl
    · split
      · exact Or.inl rfl
      · split
        · exact Or.inl rfl
        · split
          · rename_i chatData hget
            refine Or.inr ⟨_, chatData, _, hget, ?_, rfl⟩
            rfl
          · exact Or.inl rfl
  · exact Or.inl rfl

theorem mem_firstOccurrences (l : List String) (y : String) :
    y ∈ firstOccurrences l ↔ y ∈ l := by
  induction l with
  | nil => simp [firstOccurrences]
  | cons x xs ih =>
    simp only [firstOccurrences, List.mem_cons, List.mem_filter, ih]
    by_cases h : y = x <;> simp [h]

theorem nodup_firstOccurrences (l : List String) : (firstOccurrences l).Nodup := by
  induction l with
  | nil => simp [firstOccurrences]
  | cons x xs ih =>
    simp only [firstOccurrences, List.nodup_cons]
    exact ⟨by simp, ih.filter _⟩

theorem foldl_addKey (l : List String) (acc : List String) :
    l.foldl addKey acc = acc ++ (firstOccurrences l).filter fun y => y ∉ acc := by
  induction l generalizing acc with
  | nil => simp [firstOccurrences]
  | cons x xs ih =>
    rw [List.foldl_cons, ih]
    by_cases hx : x ∈ acc
    · have h1 : addKey acc x = acc := by simp [addKey, hx]
      have h2 : (firstOccurrences (x :: xs)).filter (fun y => y ∉ acc) =
          (firstOccurrences xs).filter fun y => y ∉ acc := by
        simp only [firstOccurrences, List.filter_cons, hx, not_true_eq_false, decide_False,
          List.filter_filter]
        apply List.filter_congr
        intro y _
        by_cases hy : y ∈ acc
        · simp [hy]
        · have hyx : y ≠ x := fun e => hy (e ▸ hx)
          simp [hy, hyx]
      rw [h1, h2]
    · have h1 : addKey acc x = acc ++ [x] := by simp [addKey, hx]
      have h2 : (firstOccurrences (x :: xs)).filter (fun y => y ∉ acc) =
          x :: (firstOccurrences xs).filter fun y => y ∉ acc ++ [x] := by
        simp only [firstOccurrences, List.filter_cons, hx, not_false_eq_true, decide_True,
          if_true, List.filter_filter]
        congr 1
        apply List.filter_congr
        intro y _
        by_cases hy : y ∈ acc <;> by_cases hyx : y = x <;> simp [hy, hyx]
      rw [h1, h2]
      simp

theorem foldl_addKey_nil (l : List String) : l.foldl addKey [] = firstOccurrences l := by
  rw [foldl_addKey]
  simp

/-- The first occurrences of a concatenation: those of the first list, then
those of the second list that are not in the first. -/
theorem firstOccurrences_append (a b : List String) :
    firstOccurrences (a ++ b) = firstOccurrences a ++ (firstOccurrences b).filter fun y => y ∉ a := by
  rw [← foldl_addKey_nil, List.foldl_append, foldl_addKey_nil, foldl_addKey]
  congr 1
  apply List.filter_congr
  intro y _
  simp [mem_firstOccurrences]

theorem snapshotIds_reload (chats : List ProviderChat) (acc : List (String × ChatData)) :
    (chats.foldl (fun acc chat => jsMapSet acc chat.idSerialized (chatSummary chat)) acc).map
        Prod.fst =
      (chats.map fun chat => chat.idSerialized).foldl addKey (acc.map Prod.fst) := by
  induction chats generalizing acc with
  | nil => rfl
  | cons chat rest ih => rw [List.foldl_cons, ih, keys_jsMapSet, List.map_cons, List.foldl_cons]

theorem idsMatch_reload (chats : List ProviderChat) (acc : List (String × ChatData))
    (hacc : IdsMatch acc) :
    IdsMatch (chats.foldl (fun acc chat => jsMapSet acc chat.idSerialized (chatSummary chat))
      acc) := by
  induction chats generalizing acc with
  | nil => exact hacc
  | cons chat rest ih =>
    rw [List.foldl_cons]
    exact ih _ (idsMatch_jsMapSet acc _ _ hacc rfl)

/-- One session event leaves the snapshot order as it is, except that an
ingested message of a conversation not yet in the registry appends it. -/
theorem snapshotIds_applySessionInput (lc : String → String) (s : ServerState)
    (e : SessionInput) :
    snapshotIds (applySessionInput lc s e) =
      match messageConversation e with
      | some k => addKey (snapshotIds s) k
      | none => snapshotIds s := by
  cases e with
  | registry r =>
    cases r with
    | message msg o =>
      cases hg : o.getChat with
      | none => simp [applySessionInput, applyInput, onMessage, hg, messageConversation]
      | some chat =>
        simp [applySessionInput, applyInput, snapshotIds, messageConversation, hg,
          onMessage_activeChats lc s msg o chat hg, keys_jsMapSet]
    | markRead chatId o =>
      simpa [applySessionInput, applyInput, snapshotIds, messageConversation] using
        (onMarkRead_updatesInPlace s chatId o).keys
  | sendMessage chatId message o =>
    simpa [applySessionInput, snapshotIds, messageConversation] using
      (onSendMessage_updatesInPlace s chatId message o).keys
  | sendFile chatId file o =>
    simpa [applySessionInput, snapshotIds, messageConversation] using
      (onSendFile_updatesInPlace s chatId file o).keys

theorem idsMatch_applySessionInput (lc : String → String) (s : ServerState)
    (e : SessionInput) (hs : IdsMatch s.activeChats) :
    IdsMatch (applySessionInput lc s e).activeChats := by
  cases e with
  | registry r =>
    cases r with
    | message msg o =>
      cases hg : o.getChat with
      | none => simpa [applySessionInput, applyInput, onMessage, hg] using hs
      | some chat =>
        simp only [applySessionInput, applyInput, onMessage_activeChats lc s msg o chat hg]
        apply idsMatch_jsMapSet _ _ _ hs
        unfold updatedChatData
        cases hget : jsMapGet s.activeChats chat.idSerialized with
        | none => rfl
        | some cd => exact hs _ (jsMapGet_some_mem _ _ _ hget)
    | markRead chatId o => exact (onMarkRead_updatesInPlace s chatId o).idsMatch hs
  | sendMessage chatId message o => exact (onSendMessage_updatesInPlace s chatId message o).idsMatch hs
  | sendFile chatId file o => exact (onSendFile_updatesInPlace s chatId file o).idsMatch hs

theorem snapshotIds_runSession (lc : String → String) (evs : List SessionInput)
    (s : ServerState) :
    snapshotIds (runSession lc s evs) =
      (evs.filterMap messageConversation).foldl addKey (snapshotIds s) := by
  induction evs generalizing s with
  | nil => rfl
  | cons e rest ih =>
    simp only [runSession, List.foldl_cons] at ih ⊢
    rw [ih, snapshotIds_applySessionInput]
    cases hm : messageConversation e <;> simp [List.filterMap_cons, hm]

theorem idsMatch_runSession (lc : String → String) (evs : List SessionInput)
    (s : ServerState) (hs : IdsMatch s.activeChats) :
    IdsMatch (runSession lc s evs).activeChats := by
  induction evs generalizing s with
  | nil => exact hs
  | cons e rest ih =>
    simp only [runSession, List.foldl_cons] at ih ⊢
    exact ih _ (idsMatch_applySessionInput lc s e hs)

/-- C12. After a clear-and-reload from a provider chat list, and any sequence
of message events, mark-read commands and dashboard sends, the snapshot lists
each conversation id exactly once, in order of first insertion: the first 30
reloaded conversations in provider-list order, then the conversations first
seen in a message event, in the order of their first message. Every entry's
`id` field equals its key, and a single event either leaves the order as it is
or appends one conversation that was not present, so an update of a present
conversation never moves it. -/
theorem snapshot_in_first_insertion_order (lc : String → String) (s : ServerState)
    (chats : List ProviderChat) (evs : List SessionInput) :
    snapshotIds (runSession lc (onReady s (some chats)).1 evs) =
      firstOccurrences ((chats.take 30).map fun chat => chat.idSerialized) ++
        (firstOccurrences (evs.filterMap messageConversation)).filter
          (fun y => y ∉ (chats.take 30).map fun chat => chat.idSerialized) ∧
    snapshotIds (runSession lc (onReady s (some chats)).1 evs) =
      firstOccurrences (((chats.take 30).map fun chat => chat.idSerialized) ++
        evs.filterMap messageConversation) ∧
    (snapshotIds (runSession lc (onReady s (some chats)).1 evs)).Nodup ∧
    (∀ p ∈ (runSession lc (onReady s (some chats)).1 evs).activeChats, p.2.id = p.1) ∧
    (∀ (s2 : ServerState) (e : SessionInput),
      snapshotIds (applySessionInput lc s2 e) = snapshotIds s2 ∨
      ∃ k, messageConversation e = some k ∧ k ∉ snapshotIds s2 ∧
        snapshotIds (applySessionInput lc s2 e) = snapshotIds s2 ++ [k]) := by
  have hreload : snapshotIds (onReady s (some chats)).1 =
      firstOccurrences ((chats.take 30).map fun chat => chat.idSerialized) := by
    have h := snapshotIds_reload (chats.take 30) []
    simp only [List.map_nil] at h
    rw [foldl_addKey_nil] at h
    simpa [onReady, snapshotIds, reloadChats] using h
  have hall : snapshotIds (runSession lc (onReady s (some chats)).1 evs) =
      firstOccurrences (((chats.take 30).map fun chat => chat.idSerialized) ++
        evs.filterMap messageConversation) := by
    rw [snapshotIds_runSession, hreload, ← foldl_addKey_nil, ← List.foldl_append,
      foldl_addKey_nil]
  refine ⟨?_, hall, ?_, ?_, ?_⟩
  · rw [hall, firstOccurrences_append]
  · rw [hall]
    exact nodup_firstOccurrences _
  · apply idsMatch_runSession
    have h := idsMatch_reload (chats.take 30) [] (fun p hp => by simp at hp)
    simpa [onReady, reloadChats] using h
  · intro s2 e
    rw [snapshotIds_applySessionInput]
    cases hm : messageConversation e with
    | none => exact Or.inl rfl
    | some k =>
      by_cases hk : k ∈ snapshotIds s2
      · exact Or.inl (by simp [addKey, hk])
      · exact Or.inr ⟨k, rfl, hk, by simp [addKey, hk]⟩

theorem snapshot_in_first_insertion_order_witness :
    snapshotIds (runSession lowerLatin (onReady staleState (some repeatedChats)).1
      sampleSession) = ["b", "a", "c", "d"] ∧
    ((runSession lowerLatin (onReady staleState (some repeatedChats)).1
      sampleSession).activeChats.map fun p => (p.1, p.2.timestamp)) =
      [("b", 0), ("a", 5), ("c", 1), ("d", 1)] :=
  ⟨(snapshot_in_first_insertion_order lowerLatin staleState repeatedChats sampleSession).2.1.trans
      (by decide), by decide⟩

end WtzGuincho
